import Mathlib

/-!
Verification development for the uf-ulog core: the record model (`data.rs`),
the build-time registry (`registry.rs`), the producer façade (`producer.rs`),
and the ULog exporter state machine (`exporter.rs` / `exporter_async.rs`,
with the shared byte-level helpers of `writer_common.rs`, used there as the
`wire` module).

Bytes are modelled as natural numbers below 256 inside `List Nat`; machine
integers are natural numbers reduced by an explicit modulus where the Rust
code relies on a fixed width.  The byte sink (`embedded_io::Write`) is an
abstract state `σ` together with a `write_all` operation that either appends
and succeeds or fails with a sink error `ε`; the bounded queue on the
producer side is abstracted the same way.  Fallible Rust functions return
`Except`, and `&mut self` methods are state-passing functions that return
the updated state alongside the result, also on the error path, exactly as
a Rust method leaves its mutations behind when it returns `Err`.
-/

namespace UfUlog

/-- Little-endian byte encoding: `le_bytes k n` is the `k`-byte
little-endian image of `n` (the bytes of `n % 256^k`), as produced by the
Rust `to_le_bytes` calls in `writer_common.rs`. -/
def le_bytes : Nat → Nat → List Nat
  | 0, _ => []
  | k + 1, n => n % 256 :: le_bytes k (n / 256)

/-- `usize::MAX` on the 64-bit targets the crate is built for; the bound
used by the `checked_mul`/`checked_add` calls in `writer_common.rs`. -/
def USIZE_MAX : Nat := 2 ^ 64 - 1

/-- Syslog severity (`data.rs::LogLevel`), `repr(u8)` with the ASCII digit
values `'0'..'7'`. -/
inductive LogLevel
  | emerg
  | alert
  | crit
  | err
  | warning
  | notice
  | info
  | debug
deriving DecidableEq, Repr

/-- The `u8` value of a level: its ASCII digit (`LogLevel as u8`). -/
def LogLevel.toByte : LogLevel → Nat
  | .emerg => 48
  | .alert => 49
  | .crit => 50
  | .err => 51
  | .warning => 52
  | .notice => 53
  | .info => 54
  | .debug => 55

/-- `data.rs::ParameterValue`.  An `f32` is carried by its 4-byte IEEE bit
pattern (a number below `2^32`), which is all the exporter ever reads from
it (`to_le_bytes`). -/
inductive ParameterValue
  | i32 (v : Int)
  | f32 (bits : Nat)
deriving DecidableEq, Repr

/-- `v.to_le_bytes()` for a parameter value: the little-endian 4-byte image
of the `i32` two's complement or of the `f32` bit pattern. -/
def ParameterValue.leBytes : ParameterValue → List Nat
  | .i32 v => le_bytes 4 (v % (2 ^ 32 : Nat)).toNat
  | .f32 bits => le_bytes 4 bits

/-- `data.rs::RecordMeta`: the discriminant-side metadata of a record.
`instance` is a Lean keyword, hence the field name `inst`. -/
inductive RecordMeta
  | loggedString (level : LogLevel) (tag : Option Nat) (ts : Nat)
  | data (topic_index : Nat) (inst : Nat) (ts : Nat)
  | parameter (value : ParameterValue)
deriving DecidableEq, Repr

/-- `data.rs::Record<RECORD_CAP, MAX_MULTI_IDS>`: metadata plus the shared
bounded byte buffer (`heapless::Vec<u8, RECORD_CAP>`).  The capacity is a
parameter of the constructors rather than of the type. -/
structure Rec where
  meta : RecordMeta
  bytes : List Nat
deriving DecidableEq, Repr

/-- `Record::new_log`: truncates the text to the record capacity
(`end = min(text.len(), RECORD_CAP)`), never fails.  The `u16` tag and the
`u64` timestamp are reduced to their machine width. -/
def Rec.new_log (cap : Nat) (level : LogLevel) (tag : Option Nat) (ts : Nat)
    (text : List Nat) : Rec :=
  { meta := .loggedString level (tag.map (· % 65536)) (ts % 2 ^ 64),
    bytes := text.take cap }

/-- `Record::new_data`: fails (`heapless::Vec::from_slice`) when the payload
exceeds the record capacity.  `topic_index` is a `u16` and `instance` a
`u8`. -/
def Rec.new_data (cap : Nat) (topic_index : Nat) (inst : Nat) (ts : Nat)
    (payload : List Nat) : Option Rec :=
  if payload.length ≤ cap then
    some { meta := .data (topic_index % 65536) (inst % 256) (ts % 2 ^ 64),
           bytes := payload }
  else none

/-- `Record::new_parameter`: rejects keys longer than `u8::MAX` and keys
that do not fit the record capacity. -/
def Rec.new_parameter (cap : Nat) (key : List Nat) (value : ParameterValue) :
    Option Rec :=
  if 255 < key.length then none
  else if key.length ≤ cap then some { meta := .parameter value, bytes := key }
  else none

/-- `registry.rs::MessageMeta`; the two strings are carried as byte lists. -/
structure MessageMeta where
  name : List Nat
  format : List Nat
  wire_size : Nat
deriving DecidableEq, Repr

/-- `registry.rs::Registry`: an ordered table of message metadata. -/
structure Registry where
  entries : List MessageMeta
deriving DecidableEq, Repr

/-- The duplicate-name scan of `Registry::new`: the outer `while` fixes one
entry, the inner `while` compares it (`str_eq`, byte-for-byte string
equality) with every later entry. -/
def hasDuplicateName : List MessageMeta → Bool
  | [] => false
  | m :: rest => rest.any (fun m2 => m.name == m2.name) || hasDuplicateName rest

/-- `Registry::new`: the `const fn` panics (modelled as `none`) when two
entries share a name, and otherwise stores the entry slice unchanged. -/
def Registry.new (entries : List MessageMeta) : Option Registry :=
  if hasDuplicateName entries then none else some { entries := entries }

/-- `Registry::len`. -/
def Registry.len (r : Registry) : Nat := r.entries.length

/-- `Registry::get`: partial indexed access. -/
def Registry.get (r : Registry) (index : Nat) : Option MessageMeta :=
  if r.entries.length ≤ index then none else r.entries[index]?

/-- `export.rs::ExportStep`. -/
inductive ExportStep
  | progressed
  | idle
deriving DecidableEq, Repr

/-- `export.rs::ExportError<WriteError>`. -/
inductive ExportError (ε : Type)
  | write (e : ε)
  | invalidTopicIndex
  | invalidMultiId
  | tooManyStreams
  | messageTooLarge
deriving DecidableEq, Repr

/-- `writer_common.rs::ULOG_HEADER_MAGIC`: the 7 magic bytes followed by the
format version byte `0x01`. -/
def ULOG_HEADER_MAGIC : List Nat := [0x55, 0x4c, 0x6f, 0x67, 0x01, 0x12, 0x35, 0x01]

/-- `wire::registry_entry`: look up a topic, surfacing `InvalidTopicIndex`
when the index is out of range. -/
def registry_entry {ε : Type} (R : Registry) (topic_index : Nat) :
    Except (ExportError ε) MessageMeta :=
  match R.get topic_index with
  | some m => .ok m
  | none => .error .invalidTopicIndex

/-- `wire::stream_slot`: `topic_index.checked_mul(MAX_MULTI_IDS)` followed by
`checked_add(instance)`; `none` models the `usize` overflow of either step. -/
def stream_slot (max_multi_ids : Nat) (topic_index : Nat) (inst : Nat) :
    Option Nat :=
  if USIZE_MAX < topic_index * max_multi_ids then none
  else if USIZE_MAX < topic_index * max_multi_ids + inst then none
  else some (topic_index * max_multi_ids + inst)

/-- `wire::slot_msg_id`: `u16::try_from(slot)`, surfacing `TooManyStreams`
when the slot does not fit. -/
def slot_msg_id {ε : Type} (slot : Nat) : Except (ExportError ε) Nat :=
  if slot ≤ 65535 then .ok slot else .error .tooManyStreams

/-- `wire::checked_total_len`: `base.checked_add(extra)` then the capacity
check, both failing with `MessageTooLarge`. -/
def checked_total_len {ε : Type} (base extra capacity : Nat) :
    Except (ExportError ε) Nat :=
  if USIZE_MAX < base + extra then .error .messageTooLarge
  else if capacity < base + extra then .error .messageTooLarge
  else .ok (base + extra)

/-- `wire::write_header`: the 16-byte ULog file header — magic, version,
then the timestamp as little-endian `u64`. -/
def write_header (timestamp_micros : Nat) : List Nat :=
  ULOG_HEADER_MAGIC ++ le_bytes 8 timestamp_micros

/-- `wire::message_header`: the 3-byte frame envelope
`size_le_u16 || msg_type`, failing with `MessageTooLarge` when the payload
length does not fit a `u16`. -/
def message_header {ε : Type} (payload_len : Nat) (msg_type : Nat) :
    Except (ExportError ε) (List Nat) :=
  if payload_len ≤ 65535 then .ok (le_bytes 2 payload_len ++ [msg_type])
  else .error .messageTooLarge

/-- Modelled from the spec: `wire::format_payload_len`, the pre-write
validation of a format frame's payload size, is not under `src/` (only its
callers in `exporter.rs`/`exporter_async.rs` are).  Per §4.4.3 a payload
exceeding 65535 bytes fails with `MessageTooLarge`; the payload is
`name || ':' || format`. -/
def format_payload_len {ε : Type} (name format : List Nat) :
    Except (ExportError ε) Nat :=
  if name.length + 1 + format.length ≤ 65535 then
    .ok (name.length + 1 + format.length)
  else .error .messageTooLarge

/-- Modelled from the spec: `wire::add_subscription_payload_len` is not
under `src/`.  The payload is `multi_id || msg_id_le_u16 || name`
(3 + name length); sizes beyond 65535 fail with `MessageTooLarge`. -/
def add_subscription_payload_len {ε : Type} (name : List Nat) :
    Except (ExportError ε) Nat :=
  if 3 + name.length ≤ 65535 then .ok (3 + name.length)
  else .error .messageTooLarge

/-- Modelled from the spec: `wire::data_payload_len` is not under `src/`.
The payload is `msg_id_le_u16 || data` (2 + data length); sizes beyond
65535 fail with `MessageTooLarge`. -/
def data_payload_len {ε : Type} (data_len : Nat) : Except (ExportError ε) Nat :=
  if 2 + data_len ≤ 65535 then .ok (2 + data_len) else .error .messageTooLarge

/-- Modelled from the spec: `wire::log_payload_len` is not under `src/`.
The payload is `level || ts_le_u64 || text` (9 + text length); sizes beyond
65535 fail with `MessageTooLarge`. -/
def log_payload_len {ε : Type} (text_len : Nat) : Except (ExportError ε) Nat :=
  if 9 + text_len ≤ 65535 then .ok (9 + text_len) else .error .messageTooLarge

/-- Modelled from the spec: `wire::tagged_log_payload_len` is not under
`src/`.  The payload is `level || tag_le_u16 || ts_le_u64 || text`
(11 + text length); sizes beyond 65535 fail with `MessageTooLarge`. -/
def tagged_log_payload_len {ε : Type} (text_len : Nat) :
    Except (ExportError ε) Nat :=
  if 11 + text_len ≤ 65535 then .ok (11 + text_len) else .error .messageTooLarge

/-- Modelled from the spec: `wire::parameter_payload_len` is not under
`src/`.  The payload is `key_len_u8 || key || value_le_bytes`; sizes beyond
65535 fail with `MessageTooLarge`. -/
def parameter_payload_len {ε : Type} (key raw : List Nat) :
    Except (ExportError ε) Nat :=
  if 1 + key.length + raw.length ≤ 65535 then .ok (1 + key.length + raw.length)
  else .error .messageTooLarge

/-- Modelled from the spec: `wire::parameter_prefix` is not under `src/`.
It yields the one-byte `key_len_u8` prefix of a parameter payload, failing
(`u8::try_from`, as in `wire::parameter_payload`) when the key exceeds 255
bytes. -/
def parameter_prefix_bytes {ε : Type} (key : List Nat) :
    Except (ExportError ε) (List Nat) :=
  if key.length ≤ 255 then .ok [key.length] else .error .messageTooLarge

/-- Modelled from the spec: `wire::add_subscription_prefix` is not under
`src/`.  The first payload bytes of an `'A'` frame:
`multi_id || msg_id_le_u16`. -/
def add_subscription_prefix_bytes (multi_id msg_id : Nat) : List Nat :=
  multi_id % 256 :: le_bytes 2 msg_id

/-- Modelled from the spec: `wire::data_prefix` is not under `src/`.  The
first payload bytes of a `'D'` frame: `msg_id_le_u16`. -/
def data_prefix_bytes (msg_id : Nat) : List Nat :=
  le_bytes 2 msg_id

/-- Modelled from the spec: `wire::log_prefix` is not under `src/`.  The
first payload bytes of an `'L'` frame: `level || ts_le_u64`. -/
def log_prefix_bytes (level ts : Nat) : List Nat :=
  level % 256 :: le_bytes 8 ts

/-- Modelled from the spec: `wire::tagged_log_prefix` is not under `src/`.
The first payload bytes of a `'C'` frame:
`level || tag_le_u16 || ts_le_u64`. -/
def tagged_log_prefix_bytes (level tag ts : Nat) : List Nat :=
  level % 256 :: (le_bytes 2 tag ++ le_bytes 8 ts)

instance exceptDecEq {ε α : Type} [DecidableEq ε] [DecidableEq α] :
    DecidableEq (Except ε α)
  | .ok a, .ok b =>
    if h : a = b then .isTrue (by rw [h])
    else .isFalse (by intro he; cases he; exact h rfl)
  | .ok _, .error _ => .isFalse (by intro h; cases h)
  | .error _, .ok _ => .isFalse (by intro h; cases h)
  | .error e, .error f =>
    if h : e = f then .isTrue (by rw [h])
    else .isFalse (by intro he; cases he; exact h rfl)

/-- The three const-generic parameters of the core
(`RECORD_CAP`, `MAX_MULTI_IDS`, `MAX_STREAMS`). -/
structure Cfg where
  record_cap : Nat
  max_multi_ids : Nat
  max_streams : Nat
deriving DecidableEq, Repr

/-- The byte-sink contract (`embedded_io::Write`): a sink state `σ` and a
`write_all` that returns the updated sink state on both outcomes.  A failure
carries a sink-specific error `ε`. -/
structure WriterModel (σ ε : Type) where
  write_all : σ → List Nat → Except ε Unit × σ

/-- The mutable fields of `exporter.rs::ULogExporter` (the queue half is
passed separately where needed): the sink, the `started` flag, the
`subscribed: [u8; MAX_STREAMS]` array and the `dropped_streams: u32`
counter. -/
structure ExpState (σ : Type) where
  writer : σ
  started : Bool
  subscribed : List Nat
  dropped_streams : Nat
deriving Repr, DecidableEq

/-- `ULogExporter::new`. -/
def ExpState.new (cfg : Cfg) (w : σ) : ExpState σ :=
  { writer := w, started := false,
    subscribed := List.replicate cfg.max_streams 0, dropped_streams := 0 }

/-- `u32::saturating_add(1)`, as used on `dropped_streams`. -/
def sat_add_u32 (d : Nat) : Nat := min (d + 1) (2 ^ 32 - 1)

/-- The `?` operator on a state-carrying step: on success continue from the
updated state, on error return it (a Rust method keeps the mutations made
before the early return). -/
def andThen {σ ε : Type} (x : Except (ExportError ε) Unit × ExpState σ)
    (f : ExpState σ → Except (ExportError ε) Unit × ExpState σ) :
    Except (ExportError ε) Unit × ExpState σ :=
  match x with
  | (.error e, s1) => (.error e, s1)
  | (.ok _, s1) => f s1

/-- The `?` operator on a pure `Result`: on success continue with the value,
on error return it with the current state. -/
def withOk {σ ε α : Type} (x : Except (ExportError ε) α) (s : ExpState σ)
    (f : α → Except (ExportError ε) Unit × ExpState σ) :
    Except (ExportError ε) Unit × ExpState σ :=
  match x with
  | .error e => (.error e, s)
  | .ok a => f a

namespace Exp

variable {σ ε : Type}

/-- `ULogExporter::write_all`: delegate to the sink, wrapping its error in
`ExportError::Write`. -/
def write_all (M : WriterModel σ ε) (s : ExpState σ) (bytes : List Nat) :
    Except (ExportError ε) Unit × ExpState σ :=
  match M.write_all s.writer bytes with
  | (.ok _, w) => (.ok (), { s with writer := w })
  | (.error e, w) => (.error (ExportError.write e), { s with writer := w })

/-- The part-writing loop at the end of `write_message_parts`. -/
def write_parts (M : WriterModel σ ε) (s : ExpState σ) :
    List (List Nat) → Except (ExportError ε) Unit × ExpState σ
  | [] => (.ok (), s)
  | p :: ps => andThen (write_all M s p) (fun s1 => write_parts M s1 ps)

/-- The length-accumulation loop at the head of `write_message_parts`:
`checked_total_len` with capacity `usize::MAX` over the parts. -/
def parts_len {ε : Type} (parts : List (List Nat)) : Except (ExportError ε) Nat :=
  parts.foldlM (fun acc p => checked_total_len acc p.length USIZE_MAX) 0

/-- `ULogExporter::write_message`: frame envelope, then the payload. -/
def write_message (M : WriterModel σ ε) (s : ExpState σ) (msg_type : Nat)
    (payload : List Nat) : Except (ExportError ε) Unit × ExpState σ :=
  withOk (message_header payload.length msg_type) s (fun header =>
    andThen (write_all M s header) (fun s1 => write_all M s1 payload))

/-- `ULogExporter::write_message_parts`: total length, envelope, then each
part in order. -/
def write_message_parts (M : WriterModel σ ε) (s : ExpState σ) (msg_type : Nat)
    (parts : List (List Nat)) : Except (ExportError ε) Unit × ExpState σ :=
  withOk (parts_len parts) s (fun payload_len =>
    withOk (message_header payload_len msg_type) s (fun header =>
      andThen (write_all M s header) (fun s1 => write_parts M s1 parts)))

/-- `ULogExporter::write_flag_bits`: a `'B'` frame with 40 zero bytes. -/
def write_flag_bits (M : WriterModel σ ε) (s : ExpState σ) :
    Except (ExportError ε) Unit × ExpState σ :=
  write_message M s 66 (List.replicate 40 0)

/-- `ULogExporter::write_format`: an `'F'` frame with payload
`name || ':' || format`. -/
def write_format (M : WriterModel σ ε) (s : ExpState σ) (name format : List Nat) :
    Except (ExportError ε) Unit × ExpState σ :=
  withOk (format_payload_len (ε := ε) name format) s (fun _ =>
    write_message_parts M s 70 [name, [58], format])

/-- `ULogExporter::write_add_subscription`: an `'A'` frame with payload
`multi_id || msg_id_le_u16 || name`. -/
def write_add_subscription (M : WriterModel σ ε) (s : ExpState σ)
    (multi_id msg_id : Nat) (name : List Nat) :
    Except (ExportError ε) Unit × ExpState σ :=
  withOk (add_subscription_payload_len (ε := ε) name) s (fun _ =>
    write_message_parts M s 65 [add_subscription_prefix_bytes multi_id msg_id, name])

/-- `ULogExporter::write_data`: a `'D'` frame with payload
`msg_id_le_u16 || data`. -/
def write_data (M : WriterModel σ ε) (s : ExpState σ) (msg_id : Nat)
    (data : List Nat) : Except (ExportError ε) Unit × ExpState σ :=
  withOk (data_payload_len (ε := ε) data.length) s (fun _ =>
    write_message_parts M s 68 [data_prefix_bytes msg_id, data])

/-- `ULogExporter::write_log`: an `'L'` frame with payload
`level || ts_le_u64 || text`. -/
def write_log (M : WriterModel σ ε) (s : ExpState σ) (level ts : Nat)
    (text : List Nat) : Except (ExportError ε) Unit × ExpState σ :=
  withOk (log_payload_len (ε := ε) text.length) s (fun _ =>
    write_message_parts M s 76 [log_prefix_bytes level ts, text])

/-- `ULogExporter::write_tagged_log`: a `'C'` frame with payload
`level || tag_le_u16 || ts_le_u64 || text`. -/
def write_tagged_log (M : WriterModel σ ε) (s : ExpState σ) (level tag ts : Nat)
    (text : List Nat) : Except (ExportError ε) Unit × ExpState σ :=
  withOk (tagged_log_payload_len (ε := ε) text.length) s (fun _ =>
    write_message_parts M s 67 [tagged_log_prefix_bytes level tag ts, text])

/-- `ULogExporter::write_parameter`: a `'P'` frame with payload
`key_len_u8 || key || value_le_bytes`. -/
def write_parameter (M : WriterModel σ ε) (s : ExpState σ) (key : List Nat)
    (value : ParameterValue) : Except (ExportError ε) Unit × ExpState σ :=
  let raw := value.leBytes
  withOk (parameter_payload_len (ε := ε) key raw) s (fun _ =>
    withOk (parameter_prefix_bytes (ε := ε) key) s (fun key_len =>
      write_message_parts M s 80 [key_len, key, raw]))

/-- `exporter.rs::ULogExporter::write_record`: dispatch on the record
variant; the `Data` sub-protocol checks the instance, the topic, the slot
budget and the `u16` msg id, and lazily emits an `AddSubscription` frame. -/
def write_record (cfg : Cfg) (R : Registry) (M : WriterModel σ ε)
    (s : ExpState σ) (r : Rec) : Except (ExportError ε) Unit × ExpState σ :=
  match r.meta with
  | .loggedString level tag ts =>
    match tag with
    | some tag => write_tagged_log M s level.toByte tag ts r.bytes
    | none => write_log M s level.toByte ts r.bytes
  | .data topic_index inst _ =>
    if cfg.max_multi_ids ≤ inst then (.error .invalidMultiId, s)
    else
      withOk (registry_entry (ε := ε) R topic_index) s (fun meta =>
        match stream_slot cfg.max_multi_ids topic_index inst with
        | none =>
          (.ok (), { s with dropped_streams := sat_add_u32 s.dropped_streams })
        | some slot =>
          if cfg.max_streams ≤ slot then
            (.ok (), { s with dropped_streams := sat_add_u32 s.dropped_streams })
          else
            withOk (slot_msg_id (ε := ε) slot) s (fun msg_id =>
              if s.subscribed.getD slot 0 == 0 then
                andThen (write_add_subscription M s inst msg_id meta.name)
                  (fun s1 =>
                    write_data M { s1 with subscribed := s1.subscribed.set slot 1 }
                      msg_id r.bytes)
              else write_data M s msg_id r.bytes))
  | .parameter value => write_parameter M s r.bytes value

/-- The format-frame loop of `emit_startup`. -/
def write_formats (M : WriterModel σ ε) (s : ExpState σ) :
    List MessageMeta → Except (ExportError ε) Unit × ExpState σ
  | [] => (.ok (), s)
  | m :: rest =>
    andThen (write_format M s m.name m.format) (fun s1 => write_formats M s1 rest)

/-- The body of `emit_startup` after the `started` early return: file
header, flag-bits frame, one format frame per registry entry, then set
`started`. -/
def emit_startup_body (R : Registry) (M : WriterModel σ ε) (s : ExpState σ)
    (timestamp_micros : Nat) : Except (ExportError ε) Unit × ExpState σ :=
  andThen (write_all M s (write_header timestamp_micros)) (fun s1 =>
    andThen (write_flag_bits M s1) (fun s2 =>
      andThen (write_formats M s2 R.entries) (fun s3 =>
        (.ok (), { s3 with started := true }))))

/-- `exporter.rs::ULogExporter::emit_startup`. -/
def emit_startup (R : Registry) (M : WriterModel σ ε) (s : ExpState σ)
    (timestamp_micros : Nat) : Except (ExportError ε) Unit × ExpState σ :=
  if s.started then (.ok (), s) else emit_startup_body R M s timestamp_micros

/-- `exporter.rs::ULogExporter::poll_once`, with the `RecordSource` queue
modelled as the list of records it will yield (`try_recv` pops the head,
also when the subsequent write fails). -/
def poll_once (cfg : Cfg) (R : Registry) (M : WriterModel σ ε)
    (s : ExpState σ) (queue : List Rec) :
    Except (ExportError ε) ExportStep × ExpState σ × List Rec :=
  if s.started then
    match queue with
    | [] => (.ok .idle, s, queue)
    | r :: rest =>
      match write_record cfg R M s r with
      | (.error e, s1) => (.error e, s1, rest)
      | (.ok _, s1) => (.ok .progressed, s1, rest)
  else (.ok .idle, s, queue)

/-- Draining a record sequence: the effect of repeated `poll_once` calls on
a started exporter, one `write_record` per drained record, stopping at the
first surfaced error. -/
def drain_records (cfg : Cfg) (R : Registry) (M : WriterModel σ ε)
    (s : ExpState σ) : List Rec → Except (ExportError ε) Unit × ExpState σ
  | [] => (.ok (), s)
  | r :: rest =>
    andThen (write_record cfg R M s r) (fun s1 => drain_records cfg R M s1 rest)

end Exp

namespace ExpAsync

/-!
The suspending exporter (`exporter_async.rs::ULogAsyncExporter`).  Its
`await` points suspend but do not change what is computed, so each
`async fn` embeds to a plain function; the definitions below are translated
from `exporter_async.rs` independently of the `Exp` namespace.
-/

variable {σ ε : Type}

/-- `ULogAsyncExporter::write_all`. -/
def write_all (M : WriterModel σ ε) (s : ExpState σ) (bytes : List Nat) :
    Except (ExportError ε) Unit × ExpState σ :=
  match M.write_all s.writer bytes with
  | (.ok _, w) => (.ok (), { s with writer := w })
  | (.error e, w) => (.error (ExportError.write e), { s with writer := w })

/-- The part-writing loop at the end of the async `write_message_parts`. -/
def write_parts (M : WriterModel σ ε) (s : ExpState σ) :
    List (List Nat) → Except (ExportError ε) Unit × ExpState σ
  | [] => (.ok (), s)
  | p :: ps => andThen (write_all M s p) (fun s1 => write_parts M s1 ps)

/-- `ULogAsyncExporter::write_message_parts`. -/
def write_message_parts (M : WriterModel σ ε) (s : ExpState σ) (msg_type : Nat)
    (parts : List (List Nat)) : Except (ExportError ε) Unit × ExpState σ :=
  withOk (Exp.parts_len parts) s (fun payload_len =>
    withOk (message_header payload_len msg_type) s (fun header =>
      andThen (write_all M s header) (fun s1 => write_parts M s1 parts)))

/-- `ULogAsyncExporter::write_add_subscription`. -/
def write_add_subscription (M : WriterModel σ ε) (s : ExpState σ)
    (multi_id msg_id : Nat) (name : List Nat) :
    Except (ExportError ε) Unit × ExpState σ :=
  withOk (add_subscription_payload_len (ε := ε) name) s (fun _ =>
    write_message_parts M s 65 [add_subscription_prefix_bytes multi_id msg_id, name])

/-- `ULogAsyncExporter::write_data`. -/
def write_data (M : WriterModel σ ε) (s : ExpState σ) (msg_id : Nat)
    (data : List Nat) : Except (ExportError ε) Unit × ExpState σ :=
  withOk (data_payload_len (ε := ε) data.length) s (fun _ =>
    write_message_parts M s 68 [data_prefix_bytes msg_id, data])

/-- `ULogAsyncExporter::write_log`. -/
def write_log (M : WriterModel σ ε) (s : ExpState σ) (level ts : Nat)
    (text : List Nat) : Except (ExportError ε) Unit × ExpState σ :=
  withOk (log_payload_len (ε := ε) text.length) s (fun _ =>
    write_message_parts M s 76 [log_prefix_bytes level ts, text])

/-- `ULogAsyncExporter::write_tagged_log`. -/
def write_tagged_log (M : WriterModel σ ε) (s : ExpState σ) (level tag ts : Nat)
    (text : List Nat) : Except (ExportError ε) Unit × ExpState σ :=
  withOk (tagged_log_payload_len (ε := ε) text.length) s (fun _ =>
    write_message_parts M s 67 [tagged_log_prefix_bytes level tag ts, text])

/-- `ULogAsyncExporter::write_parameter`. -/
def write_parameter (M : WriterModel σ ε) (s : ExpState σ) (key : List Nat)
    (value : ParameterValue) : Except (ExportError ε) Unit × ExpState σ :=
  let raw := value.leBytes
  withOk (parameter_payload_len (ε := ε) key raw) s (fun _ =>
    withOk (parameter_prefix_bytes (ε := ε) key) s (fun key_len =>
      write_message_parts M s 80 [key_len, key, raw]))

/-- `exporter_async.rs::ULogAsyncExporter::write_record`. -/
def write_record (cfg : Cfg) (R : Registry) (M : WriterModel σ ε)
    (s : ExpState σ) (r : Rec) : Except (ExportError ε) Unit × ExpState σ :=
  match r.meta with
  | .loggedString level tag ts =>
    match tag with
    | some tag => write_tagged_log M s level.toByte tag ts r.bytes
    | none => write_log M s level.toByte ts r.bytes
  | .data topic_index inst _ =>
    if cfg.max_multi_ids ≤ inst then (.error .invalidMultiId, s)
    else
      withOk (registry_entry (ε := ε) R topic_index) s (fun meta =>
        match stream_slot cfg.max_multi_ids topic_index inst with
        | none =>
          (.ok (), { s with dropped_streams := sat_add_u32 s.dropped_streams })
        | some slot =>
          if cfg.max_streams ≤ slot then
            (.ok (), { s with dropped_streams := sat_add_u32 s.dropped_streams })
          else
            withOk (slot_msg_id (ε := ε) slot) s (fun msg_id =>
              if s.subscribed.getD slot 0 == 0 then
                andThen (write_add_subscription M s inst msg_id meta.name)
                  (fun s1 =>
                    write_data M { s1 with subscribed := s1.subscribed.set slot 1 }
                      msg_id r.bytes)
              else write_data M s msg_id r.bytes))
  | .parameter value => write_parameter M s r.bytes value

end ExpAsync

/-- `data.rs::TrySendError` (queue full or closed). -/
inductive TrySendError
  | full
  | closed
deriving DecidableEq, Repr

/-- `producer.rs::EmitStatus`. -/
inductive EmitStatus
  | emitted
  | dropped
deriving DecidableEq, Repr

/-- The bounded-queue contract on the producer side
(`producer.rs::RecordSink`): a queue state `τ` and a non-blocking
`try_send` that returns the updated queue state on both outcomes. -/
structure TxModel (τ : Type) where
  try_send : τ → Rec → Except TrySendError Unit × τ

/-- The owned state of `producer.rs::ULogProducer`: the
`dropped_total: AtomicU32` counter. -/
structure PState where
  dropped_total : Nat
deriving DecidableEq, Repr

namespace Producer

variable {τ : Type}

/-- `AtomicU32::fetch_add(1, Relaxed)`: a wrapping `u32` increment. -/
def bump (p : PState) : PState :=
  { dropped_total := (p.dropped_total + 1) % 2 ^ 32 }

/-- `producer.rs::make_text`: truncate the message to the record
capacity. -/
def make_text (cap : Nat) (msg : List Nat) : List Nat := msg.take cap

/-- `ULogProducer::try_emit`: one non-blocking enqueue; full or closed both
bump `dropped_total` and report `Dropped`. -/
def try_emit (T : TxModel τ) (p : PState) (t : τ) (r : Rec) :
    EmitStatus × PState × τ :=
  match T.try_send t r with
  | (.ok _, t1) => (.emitted, p, t1)
  | (.error _, t1) => (.dropped, bump p, t1)

/-- `ULogProducer::log`. -/
def log (cfg : Cfg) (T : TxModel τ) (p : PState) (t : τ) (level : LogLevel)
    (ts : Nat) (msg : List Nat) : EmitStatus × PState × τ :=
  try_emit T p t (Rec.new_log cfg.record_cap level none ts (make_text cfg.record_cap msg))

/-- `ULogProducer::log_tagged`. -/
def log_tagged (cfg : Cfg) (T : TxModel τ) (p : PState) (t : τ)
    (level : LogLevel) (tag : Nat) (ts : Nat) (msg : List Nat) :
    EmitStatus × PState × τ :=
  try_emit T p t
    (Rec.new_log cfg.record_cap level (some tag) ts (make_text cfg.record_cap msg))

/-- `ULogProducer::parameter`: build the key `"<ty> <name>"` in a
`heapless::String<RECORD_CAP>`, dropping when any push overflows the
capacity or the result exceeds `u8::MAX`; then build the record and
enqueue. -/
def parameter (cfg : Cfg) (T : TxModel τ) (p : PState) (t : τ)
    (ty name : List Nat) (value : ParameterValue) : EmitStatus × PState × τ :=
  if cfg.record_cap < ty.length ∨ cfg.record_cap < ty.length + 1 ∨
      cfg.record_cap < ty.length + 1 + name.length ∨
      255 < ty.length + 1 + name.length then
    (.dropped, bump p, t)
  else
    match Rec.new_parameter cfg.record_cap (ty ++ 32 :: name) value with
    | some r => try_emit T p t r
    | none => (.dropped, bump p, t)

/-- The byte string `"int32_t"`. -/
def int32_t_bytes : List Nat := [105, 110, 116, 51, 50, 95, 116]

/-- The byte string `"float"`. -/
def float_bytes : List Nat := [102, 108, 111, 97, 116]

/-- `ULogProducer::parameter_i32`. -/
def parameter_i32 (cfg : Cfg) (T : TxModel τ) (p : PState) (t : τ)
    (name : List Nat) (value : Int) : EmitStatus × PState × τ :=
  parameter cfg T p t int32_t_bytes name (ParameterValue.i32 value)

/-- `ULogProducer::parameter_f32` (the `f32` is carried as its bit
pattern). -/
def parameter_f32 (cfg : Cfg) (T : TxModel τ) (p : PState) (t : τ)
    (name : List Nat) (bits : Nat) : EmitStatus × PState × τ :=
  parameter cfg T p t float_bytes name (ParameterValue.f32 bits)

/-- `ULogProducer::data_instance`.  The compile-time-bound value is
abstracted by its observable interface (`§6.3 ULogData`): its topic index
(`TopicOf::TOPIC.id()`), its timestamp, and the outcome of
`encode(&mut [0; RECORD_CAP])` — either an error or the returned length
together with the scratch-buffer contents after the call. -/
def data_instance (cfg : Cfg) (R : Registry) (T : TxModel τ) (p : PState)
    (t : τ) (topic_index : Nat) (inst : Nat) (ts : Nat)
    (encode : Except Unit (Nat × List Nat)) : EmitStatus × PState × τ :=
  if R.len ≤ topic_index then (.dropped, bump p, t)
  else if cfg.max_multi_ids ≤ inst then (.dropped, bump p, t)
  else
    match encode with
    | .error _ => (.dropped, bump p, t)
    | .ok (encoded_len, written) =>
      if cfg.record_cap < encoded_len then (.dropped, bump p, t)
      else
        match Rec.new_data cfg.record_cap topic_index inst ts
            (((written ++ List.replicate cfg.record_cap 0).take
              cfg.record_cap).take encoded_len) with
        | some r => try_emit T p t r
        | none => (.dropped, bump p, t)

/-- `ULogProducer::data` is `data_instance` with instance `0`. -/
def data (cfg : Cfg) (R : Registry) (T : TxModel τ) (p : PState) (t : τ)
    (topic_index : Nat) (ts : Nat) (encode : Except Unit (Nat × List Nat)) :
    EmitStatus × PState × τ :=
  data_instance cfg R T p t topic_index 0 ts encode

/-- `ULogProducer::dropped_count`. -/
def dropped_count (p : PState) : Nat := p.dropped_total

/-- One public producer call, with its inputs packaged so that call
sequences can be quantified over. -/
inductive POp
  | log (level : LogLevel) (ts : Nat) (msg : List Nat)
  | logTagged (level : LogLevel) (tag : Nat) (ts : Nat) (msg : List Nat)
  | paramI32 (name : List Nat) (value : Int)
  | paramF32 (name : List Nat) (bits : Nat)
  | dataInst (topic_index : Nat) (inst : Nat) (ts : Nat)
      (encode : Except Unit (Nat × List Nat))
  | dataOp (topic_index : Nat) (ts : Nat) (encode : Except Unit (Nat × List Nat))

/-- Dispatch one call. -/
def run_op (cfg : Cfg) (R : Registry) (T : TxModel τ) (p : PState) (t : τ) :
    POp → EmitStatus × PState × τ
  | .log level ts msg => log cfg T p t level ts msg
  | .logTagged level tag ts msg => log_tagged cfg T p t level tag ts msg
  | .paramI32 name value => parameter_i32 cfg T p t name value
  | .paramF32 name bits => parameter_f32 cfg T p t name bits
  | .dataInst ti inst ts enc => data_instance cfg R T p t ti inst ts enc
  | .dataOp ti ts enc => data cfg R T p t ti ts enc

/-- Run a call sequence, collecting the returned statuses in order. -/
def run_ops (cfg : Cfg) (R : Registry) (T : TxModel τ) :
    PState → τ → List POp → List EmitStatus × PState × τ
  | p, t, [] => ([], p, t)
  | p, t, op :: rest =>
    ((run_op cfg R T p t op).1
        :: (run_ops cfg R T (run_op cfg R T p t op).2.1
              (run_op cfg R T p t op).2.2 rest).1,
      (run_ops cfg R T (run_op cfg R T p t op).2.1
        (run_op cfg R T p t op).2.2 rest).2)

end Producer

/-- A sink that always accepts and records the written bytes (the test
`VecSink`); its error type is empty. -/
def vecSink : WriterModel (List Nat) Empty :=
  { write_all := fun w bytes => (.ok (), w ++ bytes) }

/-- A sink that accepts a fixed byte budget and then fails every write, the
bytes of a failed write being lost: one legal `embedded_io::Write`
implementor, used to exercise the error path. -/
def failSink : WriterModel (Nat × List Nat) Unit :=
  { write_all := fun w bytes =>
      if bytes.length ≤ w.1 then (.ok (), (w.1 - bytes.length, w.2 ++ bytes))
      else (.error (), w) }

/-- A queue that always reports `Full`. -/
def fullTx : TxModel Unit :=
  { try_send := fun t _ => (.error .full, t) }

/-- A queue with a free-slot budget that records accepted records. -/
def listTx : TxModel (Nat × List Rec) :=
  { try_send := fun t r =>
      if t.1 = 0 then (.error .full, t)
      else (.ok (), (t.1 - 1, t.2 ++ [r])) }

/-- The on-wire image of one frame (§6.1 message envelope):
`size_le_u16 || msg_type || payload`. -/
def frame_bytes (msg_type : Nat) (payload : List Nat) : List Nat :=
  le_bytes 2 payload.length ++ msg_type :: payload

/-- The format frame of one registry entry: an `'F'` frame with payload
`name || ':' || format`. -/
def format_frame (m : MessageMeta) : List Nat :=
  frame_bytes 70 (m.name ++ 58 :: m.format)

/-- The complete startup byte sequence: file header, flag-bits frame, one
format frame per registry entry in registry order. -/
def startup_bytes (R : Registry) (ts : Nat) : List Nat :=
  write_header ts ++ frame_bytes 66 (List.replicate 40 0)
    ++ (R.entries.map format_frame).flatten

/-- Split a byte stream back into `(msg_type, payload)` frames by reading
each envelope; the observation function for stating wire-level claims. -/
def parse_frames : List Nat → List (Nat × List Nat)
  | [] => []
  | [_] => []
  | [_, _] => []
  | b0 :: b1 :: t :: rest =>
    (t, rest.take (b0 + 256 * b1)) :: parse_frames (rest.drop (b0 + 256 * b1))
termination_by bs => bs.length
decreasing_by
  simp only [List.length_drop, List.length_cons]
  omega

/-- Is this frame the `AddSubscription` frame of the given slot: type `'A'`
and the `msg_id` field (payload bytes 1 and 2, little-endian) decoding to
the slot. -/
def is_sub_frame (slot : Nat) (f : Nat × List Nat) : Bool :=
  f.1 == 65 &&
    match f.2 with
    | _ :: b1 :: b2 :: _ => b1 + 256 * b2 == slot
    | _ => false

/-- Is this frame a `Data` frame of the given slot: type `'D'` and the
leading `msg_id` field decoding to the slot. -/
def is_data_frame (slot : Nat) (f : Nat × List Nat) : Bool :=
  f.1 == 68 &&
    match f.2 with
    | b0 :: b1 :: _ => b0 + 256 * b1 == slot
    | _ => false

/-- Number of `AddSubscription` frames for a slot. -/
def count_sub (slot : Nat) (fs : List (Nat × List Nat)) : Nat :=
  fs.countP (is_sub_frame slot)

/-- Number of `Data` frames for a slot. -/
def count_data (slot : Nat) (fs : List (Nat × List Nat)) : Nat :=
  fs.countP (is_data_frame slot)

/-- Is this record a `Data` record of the given (topic, instance) pair. -/
def is_data_record (topic_index inst : Nat) (r : Rec) : Bool :=
  match r.meta with
  | .data ti i _ => ti == topic_index && i == inst
  | _ => false

/-- The non-writer exporter fields (flag, subscription set, drop counter)
are untouched by a step. -/
def pres {σ : Type} (s s' : ExpState σ) : Prop :=
  s'.started = s.started ∧ s'.subscribed = s.subscribed
    ∧ s'.dropped_streams = s.dropped_streams

/-- Number of `Dropped` statuses in a result sequence. -/
def dropped_in (sts : List EmitStatus) : Nat :=
  sts.countP (fun st => st == EmitStatus.dropped)

@[simp] theorem andThen_ok {σ ε : Type} (u : Unit) (s : ExpState σ)
    (f : ExpState σ → Except (ExportError ε) Unit × ExpState σ) :
    andThen (.ok u, s) f = f s := rfl

@[simp] theorem andThen_err {σ ε : Type} (e : ExportError ε) (s : ExpState σ)
    (f : ExpState σ → Except (ExportError ε) Unit × ExpState σ) :
    andThen (.error e, s) f = (.error e, s) := rfl

@[simp] theorem withOk_ok {σ ε α : Type} (a : α) (s : ExpState σ)
    (f : α → Except (ExportError ε) Unit × ExpState σ) :
    withOk (.ok a) s f = f a := rfl

@[simp] theorem withOk_err {σ ε α : Type} (e : ExportError ε) (s : ExpState σ)
    (f : α → Except (ExportError ε) Unit × ExpState σ) :
    withOk (Except.error e : Except (ExportError ε) α) s f = (.error e, s) := rfl

theorem le_bytes_length (k n : Nat) : (le_bytes k n).length = k := by
  induction k generalizing n with
  | zero => rfl
  | succ k ih => simp [le_bytes, ih]

theorem le_bytes_mod (k n : Nat) : le_bytes k (n % 256 ^ k) = le_bytes k n := by
  induction k generalizing n with
  | zero => rfl
  | succ k ih =>
    have h1 : n % 256 ^ (k + 1) % 256 = n % 256 := by
      apply Nat.mod_mod_of_dvd
      exact ⟨256 ^ k, by rw [pow_succ, mul_comm]⟩
    have h2 : n % 256 ^ (k + 1) / 256 = n / 256 % 256 ^ k := by
      rw [pow_succ, mul_comm]
      exact Nat.mod_mul_right_div_self n 256 (256 ^ k)
    simp only [le_bytes, h1, h2, ih]

theorem decode_le16 (n : Nat) (h : n ≤ 65535) :
    n % 256 + 256 * (n / 256 % 256) = n := by
  have h1 : n / 256 < 256 := by omega
  rw [Nat.mod_eq_of_lt h1]
  omega

/-- Reading one well-formed frame off the front of a byte stream. -/
theorem parse_frames_cons (t : Nat) (p rest : List Nat) (h : p.length ≤ 65535) :
    parse_frames (frame_bytes t p ++ rest) = (t, p) :: parse_frames rest := by
  show parse_frames (p.length % 256 :: p.length / 256 % 256 :: t :: (p ++ rest)) = _
  rw [parse_frames]
  rw [decode_le16 p.length h]
  rw [List.take_left, List.drop_left]

theorem write_all_vec (s : ExpState (List Nat)) (bs : List Nat) :
    Exp.write_all vecSink s bs = (.ok (), { s with writer := s.writer ++ bs }) :=
  rfl

theorem write_parts_vec (s : ExpState (List Nat)) (ps : List (List Nat)) :
    Exp.write_parts vecSink s ps
      = (.ok (), { s with writer := s.writer ++ ps.flatten }) := by
  induction ps generalizing s with
  | nil => simp [Exp.write_parts]
  | cons p ps ih => simp [Exp.write_parts, write_all_vec, ih]

theorem parts_len_go {ε : Type} (parts : List (List Nat)) (acc : Nat)
    (h : acc + parts.flatten.length ≤ USIZE_MAX) :
    List.foldlM (fun acc p => checked_total_len (ε := ε) acc p.length USIZE_MAX)
        acc parts
      = .ok (acc + parts.flatten.length) := by
  induction parts generalizing acc with
  | nil => simp [List.foldlM]; rfl
  | cons p ps ih =>
    have hb : acc + p.length + ps.flatten.length ≤ USIZE_MAX := by
      simp only [List.flatten_cons, List.length_append] at h
      omega
    have hstep : checked_total_len (ε := ε) acc p.length USIZE_MAX
        = .ok (acc + p.length) := by
      rw [checked_total_len, if_neg (by omega), if_neg (by omega)]
    rw [List.foldlM_cons, hstep]
    show List.foldlM _ (acc + p.length) ps = _
    rw [ih (acc + p.length) hb]
    simp [Nat.add_assoc]

theorem parts_len_ok {ε : Type} (parts : List (List Nat))
    (h : parts.flatten.length ≤ USIZE_MAX) :
    Exp.parts_len (ε := ε) parts = .ok parts.flatten.length := by
  have := parts_len_go (ε := ε) parts 0 (by omega)
  simpa [Exp.parts_len] using this

theorem write_message_parts_vec (s : ExpState (List Nat)) (t : Nat)
    (parts : List (List Nat)) (h : parts.flatten.length ≤ 65535) :
    Exp.write_message_parts vecSink s t parts
      = (.ok (), { s with writer := s.writer ++ frame_bytes t parts.flatten }) := by
  have hU : parts.flatten.length ≤ USIZE_MAX := by
    simp only [USIZE_MAX]; omega
  rw [Exp.write_message_parts, parts_len_ok _ hU]
  simp only [message_header, if_pos h, withOk_ok, write_all_vec, andThen_ok,
    write_parts_vec]
  simp [frame_bytes]

theorem write_message_vec (s : ExpState (List Nat)) (t : Nat)
    (payload : List Nat) (h : payload.length ≤ 65535) :
    Exp.write_message vecSink s t payload
      = (.ok (), { s with writer := s.writer ++ frame_bytes t payload }) := by
  rw [Exp.write_message]
  simp only [message_header, if_pos h, withOk_ok, write_all_vec, andThen_ok]
  simp [frame_bytes]

theorem write_flag_bits_vec (s : ExpState (List Nat)) :
    Exp.write_flag_bits vecSink s
      = (.ok (), { s with writer := s.writer ++ frame_bytes 66 (List.replicate 40 0) }) := by
  rw [Exp.write_flag_bits, write_message_vec]
  simp

theorem write_format_vec (s : ExpState (List Nat)) (name format : List Nat)
    (h : name.length + 1 + format.length ≤ 65535) :
    Exp.write_format vecSink s name format
      = (.ok (), { s with writer := s.writer ++ frame_bytes 70 (name ++ 58 :: format) }) := by
  rw [Exp.write_format]
  simp only [format_payload_len, if_pos h, withOk_ok]
  rw [write_message_parts_vec _ _ _ (by simp; omega)]
  simp

theorem write_log_vec (s : ExpState (List Nat)) (level ts : Nat)
    (text : List Nat) (h : 9 + text.length ≤ 65535) :
    Exp.write_log vecSink s level ts text
      = (.ok (), { s with
          writer := s.writer ++ frame_bytes 76 (log_prefix_bytes level ts ++ text) }) := by
  rw [Exp.write_log]
  simp only [log_payload_len, if_pos h, withOk_ok]
  rw [write_message_parts_vec _ _ _
    (by simp [log_prefix_bytes, le_bytes_length]; omega)]
  simp

theorem write_tagged_log_vec (s : ExpState (List Nat)) (level tag ts : Nat)
    (text : List Nat) (h : 11 + text.length ≤ 65535) :
    Exp.write_tagged_log vecSink s level tag ts text
      = (.ok (), { s with
          writer := s.writer
            ++ frame_bytes 67 (tagged_log_prefix_bytes level tag ts ++ text) }) := by
  rw [Exp.write_tagged_log]
  simp only [tagged_log_payload_len, if_pos h, withOk_ok]
  rw [write_message_parts_vec _ _ _
    (by simp [tagged_log_prefix_bytes, le_bytes_length]; omega)]
  simp

theorem leBytes_length (v : ParameterValue) : v.leBytes.length = 4 := by
  cases v <;> simp [ParameterValue.leBytes, le_bytes_length]

theorem write_parameter_vec (s : ExpState (List Nat)) (key : List Nat)
    (value : ParameterValue) (h : key.length ≤ 255) :
    Exp.write_parameter vecSink s key value
      = (.ok (), { s with
          writer := s.writer
            ++ frame_bytes 80 (key.length :: (key ++ value.leBytes)) }) := by
  rw [Exp.write_parameter]
  simp only [parameter_payload_len, parameter_prefix_bytes, leBytes_length]
  rw [if_pos (by omega : 1 + key.length + 4 ≤ 65535), if_pos h]
  simp only [withOk_ok]
  rw [write_message_parts_vec _ _ _ (by simp [leBytes_length]; omega)]
  simp

theorem write_data_vec (s : ExpState (List Nat)) (msg_id : Nat)
    (data : List Nat) (h : 2 + data.length ≤ 65535) :
    Exp.write_data vecSink s msg_id data
      = (.ok (), { s with
          writer := s.writer ++ frame_bytes 68 (data_prefix_bytes msg_id ++ data) }) := by
  rw [Exp.write_data]
  simp only [data_payload_len, if_pos h, withOk_ok]
  rw [write_message_parts_vec _ _ _
    (by simp [data_prefix_bytes, le_bytes_length]; omega)]
  simp

theorem write_add_subscription_vec (s : ExpState (List Nat))
    (multi_id msg_id : Nat) (name : List Nat) (h : 3 + name.length ≤ 65535) :
    Exp.write_add_subscription vecSink s multi_id msg_id name
      = (.ok (), { s with
          writer := s.writer
            ++ frame_bytes 65 (add_subscription_prefix_bytes multi_id msg_id ++ name) }) := by
  rw [Exp.write_add_subscription]
  simp only [add_subscription_payload_len, if_pos h, withOk_ok]
  rw [write_message_parts_vec _ _ _
    (by simp [add_subscription_prefix_bytes, le_bytes_length]; omega)]
  simp

theorem write_formats_vec (s : ExpState (List Nat)) (entries : List MessageMeta)
    (h : ∀ m ∈ entries, m.name.length + 1 + m.format.length ≤ 65535) :
    Exp.write_formats vecSink s entries
      = (.ok (), { s with writer := s.writer ++ (entries.map format_frame).flatten }) := by
  induction entries generalizing s with
  | nil => simp [Exp.write_formats]
  | cons m rest ih =>
    rw [Exp.write_formats, write_format_vec s m.name m.format (h m (by simp))]
    rw [andThen_ok]
    rw [ih _ (fun m hm => h m (by simp [hm]))]
    simp [format_frame]

theorem emit_startup_vec (cfg : Cfg) (R : Registry) (ts : Nat)
    (h : ∀ m ∈ R.entries, m.name.length + 1 + m.format.length ≤ 65535) :
    Exp.emit_startup R vecSink (ExpState.new cfg []) ts
      = (.ok (), { writer := startup_bytes R ts,
                   started := true,
                   subscribed := List.replicate cfg.max_streams 0,
                   dropped_streams := 0 }) := by
  rw [Exp.emit_startup]
  simp only [ExpState.new, Bool.false_eq_true, if_false]
  rw [Exp.emit_startup_body, write_all_vec, andThen_ok, write_flag_bits_vec,
    andThen_ok, write_formats_vec _ _ h, andThen_ok]
  simp [startup_bytes, format_frame]

theorem andThen_eq_ok {σ ε : Type} {x : Except (ExportError ε) Unit × ExpState σ}
    {f : ExpState σ → Except (ExportError ε) Unit × ExpState σ}
    {s' : ExpState σ} (h : andThen x f = (.ok (), s')) :
    ∃ s1, x = (.ok (), s1) ∧ f s1 = (.ok (), s') := by
  obtain ⟨r, t⟩ := x
  cases r with
  | ok v => exact ⟨t, rfl, h⟩
  | error e => simp [andThen] at h

theorem emit_startup_ok_started {σ ε : Type} {R : Registry}
    {M : WriterModel σ ε} {s : ExpState σ} {ts : Nat}
    {s' : ExpState σ} (h : Exp.emit_startup R M s ts = (.ok (), s')) :
    s'.started = true := by
  rw [Exp.emit_startup] at h
  by_cases hs : s.started
  · rw [if_pos hs] at h
    cases h
    exact hs
  · rw [if_neg hs, Exp.emit_startup_body] at h
    obtain ⟨s1, -, h⟩ := andThen_eq_ok h
    obtain ⟨s2, -, h⟩ := andThen_eq_ok h
    obtain ⟨s3, -, h⟩ := andThen_eq_ok h
    cases h
    rfl

/-- C4: once `emit_startup` has returned success, every later
`emit_startup` call, at any timestamp, returns success immediately: it
performs no sink write and returns the state unchanged. -/
theorem claim4_emit_startup_idempotent {σ ε : Type} (R : Registry)
    (M : WriterModel σ ε) (s : ExpState σ) (ts : Nat)
    {s' : ExpState σ} (h : Exp.emit_startup R M s ts = (.ok (), s'))
    (ts2 : Nat) : Exp.emit_startup R M s' ts2 = (.ok (), s') := by
  rw [Exp.emit_startup, if_pos (emit_startup_ok_started h)]

/-- Witness for C4 at a concrete exporter: a fresh exporter over the
recording sink with a one-entry registry starts successfully, and a second
`emit_startup` at a different timestamp returns the state of the first
unchanged. -/
theorem claim4_witness :
    Exp.emit_startup (Registry.mk [MessageMeta.mk [97] [98] 1]) vecSink
        (ExpState.new (Cfg.mk 32 4 8) []) 5
      = (.ok (), (Exp.emit_startup (Registry.mk [MessageMeta.mk [97] [98] 1])
          vecSink (ExpState.new (Cfg.mk 32 4 8) []) 5).2)
    ∧ Exp.emit_startup (Registry.mk [MessageMeta.mk [97] [98] 1]) vecSink
        (Exp.emit_startup (Registry.mk [MessageMeta.mk [97] [98] 1]) vecSink
          (ExpState.new (Cfg.mk 32 4 8) []) 5).2 7
      = (.ok (), (Exp.emit_startup (Registry.mk [MessageMeta.mk [97] [98] 1])
          vecSink (ExpState.new (Cfg.mk 32 4 8) []) 5).2) :=
  ⟨by decide, claim4_emit_startup_idempotent (Registry.mk [MessageMeta.mk [97] [98] 1])
    vecSink (ExpState.new (Cfg.mk 32 4 8) []) 5 (by decide) 7⟩

/-- C3: on its first successful call, from a fresh exporter over the
recording sink, `emit_startup(ts)` writes exactly the 16-byte file header —
the magic bytes `55 4C 6F 67 01 12 35`, the version byte `01`, and `ts` as
a little-endian `u64` — then a `'B'` frame whose payload is 40 zero bytes,
then one `'F'` frame per registry entry in registry order with payload
`name || ':' || format`, and nothing else. -/
theorem claim3_startup_bytes (cfg : Cfg) (R : Registry) (ts : Nat)
    (h : ∀ m ∈ R.entries, m.name.length + 1 + m.format.length ≤ 65535) :
    Exp.emit_startup R vecSink (ExpState.new cfg []) ts
      = (.ok (), ExpState.mk
          ([0x55, 0x4c, 0x6f, 0x67, 0x01, 0x12, 0x35] ++ [0x01] ++ le_bytes 8 ts
            ++ frame_bytes 66 (List.replicate 40 0)
            ++ (R.entries.map format_frame).flatten)
          true (List.replicate cfg.max_streams 0) 0) := by
  rw [emit_startup_vec cfg R ts h]
  simp [startup_bytes, write_header, ULOG_HEADER_MAGIC]

/-- Witness for C3 at a registry of two entries. -/
theorem claim3_witness :
    (∀ m ∈ (Registry.mk [MessageMeta.mk [97] [120] 1, MessageMeta.mk [98] [121] 2]).entries,
        m.name.length + 1 + m.format.length ≤ 65535)
    ∧ Exp.emit_startup (Registry.mk [MessageMeta.mk [97] [120] 1, MessageMeta.mk [98] [121] 2])
        vecSink (ExpState.new (Cfg.mk 32 4 8) []) 3
      = (.ok (), ExpState.mk
          ([0x55, 0x4c, 0x6f, 0x67, 0x01, 0x12, 0x35] ++ [0x01] ++ le_bytes 8 3
            ++ frame_bytes 66 (List.replicate 40 0)
            ++ ((Registry.mk [MessageMeta.mk [97] [120] 1,
                  MessageMeta.mk [98] [121] 2]).entries.map format_frame).flatten)
          true (List.replicate 8 0) 0) :=
  ⟨by decide,
    claim3_startup_bytes (Cfg.mk 32 4 8)
      (Registry.mk [MessageMeta.mk [97] [120] 1, MessageMeta.mk [98] [121] 2]) 3
      (by decide)⟩

theorem LogLevel.toByte_mod (level : LogLevel) : level.toByte % 256 = level.toByte := by
  cases level <;> rfl

theorem le_bytes_8_mod (ts : Nat) : le_bytes 8 (ts % 2 ^ 64) = le_bytes 8 ts := by
  have h : (2 : Nat) ^ 64 = 256 ^ 8 := by norm_num
  rw [h, le_bytes_mod]

/-- C5: a `LoggedString` record without a tag is serialized as exactly one
`'L'` frame whose payload is `level_byte || ts_le_u64 || text` (so the
declared size is 9 plus the text length); at
`log(Info, 0x0102030405060708, "hi")` the frame bytes are exactly
`0B 00 'L' '6' 08 07 06 05 04 03 02 01 'h' 'i'`. -/
theorem claim5_untagged_log_wire :
    (∀ (cfg : Cfg) (R : Registry) (s : ExpState (List Nat)) (level : LogLevel)
        (ts : Nat) (text : List Nat),
      9 + (text.take cfg.record_cap).length ≤ 65535 →
      Exp.write_record cfg R vecSink s (Rec.new_log cfg.record_cap level none ts text)
        = (.ok (), ExpState.mk
            (s.writer ++ frame_bytes 76
              (level.toByte :: (le_bytes 8 ts ++ text.take cfg.record_cap)))
            s.started s.subscribed s.dropped_streams))
    ∧ Exp.write_record (Cfg.mk 32 8 64) (Registry.mk []) vecSink
        (ExpState.new (Cfg.mk 32 8 64) [])
        (Rec.new_log 32 LogLevel.info none 0x0102030405060708 [104, 105])
      = (.ok (), ExpState.mk [11, 0, 76, 54, 8, 7, 6, 5, 4, 3, 2, 1, 104, 105]
          false (List.replicate 64 0) 0) := by
  constructor
  · intro cfg R s level ts text h
    rw [Rec.new_log, Exp.write_record]
    show Exp.write_log vecSink s level.toByte (ts % 2 ^ 64) (text.take cfg.record_cap) = _
    rw [write_log_vec _ _ _ _ h]
    simp only [log_prefix_bytes, LogLevel.toByte_mod, le_bytes_8_mod,
      List.cons_append]
  · decide

/-- Witness for C5's general clause: the S1 instance, re-derived through
the theorem. -/
theorem claim5_witness :
    (9 + (([104, 105] : List Nat).take 32).length ≤ 65535)
    ∧ Exp.write_record (Cfg.mk 32 8 64) (Registry.mk []) vecSink
        (ExpState.new (Cfg.mk 32 8 64) [])
        (Rec.new_log 32 LogLevel.info none 0x0102030405060708 [104, 105])
      = (.ok (), ExpState.mk
          (([] : List Nat) ++ frame_bytes 76
            (LogLevel.info.toByte :: (le_bytes 8 0x0102030405060708
              ++ ([104, 105] : List Nat).take 32)))
          false (List.replicate 64 0) 0) :=
  ⟨by decide,
    claim5_untagged_log_wire.1 (Cfg.mk 32 8 64) (Registry.mk [])
      (ExpState.new (Cfg.mk 32 8 64) []) LogLevel.info 0x0102030405060708
      [104, 105] (by decide)⟩

/-- C8: for every record and every identical initial exporter state over
the same sink model, the suspending exporter's `write_record` and the
non-suspending exporter's `write_record` return the same result and leave
the same state — in particular they issue the same writes to the sink. -/
theorem claim8_async_write_record_equiv {σ ε : Type} (cfg : Cfg) (R : Registry)
    (M : WriterModel σ ε) (s : ExpState σ) (r : Rec) :
    ExpAsync.write_record cfg R M s r = Exp.write_record cfg R M s r := by
  obtain ⟨meta, bytes⟩ := r
  cases meta <;> rfl

theorem hasDuplicateName_eq_false_iff (l : List MessageMeta) :
    hasDuplicateName l = false ↔ l.Pairwise (fun a b => a.name ≠ b.name) := by
  induction l with
  | nil => simp [hasDuplicateName]
  | cons m rest ih =>
    simp only [hasDuplicateName, Bool.or_eq_false_iff, List.any_eq_false,
      List.pairwise_cons, ih]
    constructor
    · rintro ⟨h1, h2⟩
      refine ⟨fun b hb => ?_, h2⟩
      simpa using h1 b hb
    · rintro ⟨h1, h2⟩
      refine ⟨fun b hb => ?_, h2⟩
      simpa using h1 b hb

theorem dup_name_of_not_pairwise (l : List MessageMeta)
    (h : ¬ l.Pairwise (fun a b => a.name ≠ b.name)) :
    ∃ (i j : Nat), i < j ∧ ∃ (a b : MessageMeta), l[i]? = some a ∧ l[j]? = some b ∧ a.name = b.name := by
  rw [List.pairwise_iff_getElem] at h
  push_neg at h
  obtain ⟨i, j, hi, hj, hij, hnames⟩ := h
  exact ⟨i, j, hij, l[i], l[j],
    List.getElem?_eq_getElem hi, List.getElem?_eq_getElem hj, hnames⟩

theorem not_pairwise_of_dup_name (l : List MessageMeta)
    (h : ∃ (i j : Nat), i < j ∧ ∃ (a b : MessageMeta), l[i]? = some a ∧ l[j]? = some b ∧ a.name = b.name) :
    ¬ l.Pairwise (fun a b => a.name ≠ b.name) := by
  obtain ⟨i, j, hij, a, b, ha, hb, hnames⟩ := h
  rw [List.pairwise_iff_getElem]
  push_neg
  have hj : j < l.length := (List.getElem?_eq_some.mp hb).1
  have hi : i < l.length := (List.getElem?_eq_some.mp ha).1
  refine ⟨i, j, hi, hj, hij, ?_⟩
  have ha2 : l[i] = a := by
    have := List.getElem?_eq_getElem hi
    rw [ha] at this
    exact (Option.some_inj.mp this).symm
  have hb2 : l[j] = b := by
    have := List.getElem?_eq_getElem hj
    rw [hb] at this
    exact (Option.some_inj.mp this).symm
  simp [ha2, hb2, hnames]

/-- C9: `Registry::new` fails at build time (a `const`-evaluation panic)
exactly when two entries share a name: whenever positions `i < j` carry
equal names it returns nothing, and on every entry list with pairwise
distinct names it succeeds with the entries stored unchanged — same length
and same order. -/
theorem claim9_registry_duplicate_names :
    (∀ l : List MessageMeta,
      (∃ (i j : Nat), i < j ∧ ∃ (a b : MessageMeta), l[i]? = some a ∧ l[j]? = some b ∧ a.name = b.name) →
      Registry.new l = none)
    ∧ (∀ l : List MessageMeta, l.Pairwise (fun a b => a.name ≠ b.name) →
        ∃ r, Registry.new l = some r ∧ r.entries = l ∧ r.len = l.length) := by
  constructor
  · intro l h
    have hdup : hasDuplicateName l = true := by
      rcases hd : hasDuplicateName l with _ | _
      · exact absurd ((hasDuplicateName_eq_false_iff l).mp hd)
          (not_pairwise_of_dup_name l h)
      · rfl
    rw [Registry.new, if_pos hdup]
  · intro l h
    have hdup : hasDuplicateName l = false :=
      (hasDuplicateName_eq_false_iff l).mpr h
    refine ⟨Registry.mk l, ?_, rfl, rfl⟩
    rw [Registry.new, hdup]
    rfl

/-- Witness for C9: a duplicate pair is rejected, a distinct pair is
accepted unchanged. -/
theorem claim9_witness :
    Registry.new [MessageMeta.mk [97] [120] 1, MessageMeta.mk [97] [121] 2] = none
    ∧ ∃ r, Registry.new [MessageMeta.mk [97] [120] 1, MessageMeta.mk [98] [121] 2]
        = some r
      ∧ r.entries = [MessageMeta.mk [97] [120] 1, MessageMeta.mk [98] [121] 2]
      ∧ r.len = 2 :=
  ⟨claim9_registry_duplicate_names.1 _
      ⟨0, 1, by decide, MessageMeta.mk [97] [120] 1, MessageMeta.mk [97] [121] 2,
        by decide, by decide, by decide⟩,
    claim9_registry_duplicate_names.2 _ (by decide)⟩

theorem registry_entry_ok {ε : Type} (R : Registry) (i : Nat) (h : i < R.len) :
    registry_entry (ε := ε) R i = .ok (R.entries.get ⟨i, h⟩) := by
  rw [Registry.len] at h
  rw [registry_entry, Registry.get, if_neg (by omega)]
  rw [List.getElem?_eq_getElem h]
  rfl

theorem stream_slot_none_iff (m ti i : Nat) :
    stream_slot m ti i = none ↔ USIZE_MAX < ti * m + i := by
  rw [stream_slot]
  by_cases h1 : USIZE_MAX < ti * m
  · simp only [if_pos h1, true_iff]
    omega
  · rw [if_neg h1]
    by_cases h2 : USIZE_MAX < ti * m + i
    · simp [h2]
    · simp [h2]

theorem stream_slot_some (m ti i : Nat) (h : ti * m + i ≤ USIZE_MAX) :
    stream_slot m ti i = some (ti * m + i) := by
  rw [stream_slot, if_neg (by omega), if_neg (by omega)]

theorem poll_once_cons {σ ε : Type} (cfg : Cfg) (R : Registry)
    (M : WriterModel σ ε) (s : ExpState σ) (r : Rec) (queue : List Rec)
    (hst : s.started = true) :
    Exp.poll_once cfg R M s (r :: queue)
      = (match Exp.write_record cfg R M s r with
         | (.error e, s1) => (.error e, s1, queue)
         | (.ok _, s1) => (.ok .progressed, s1, queue)) := by
  rw [Exp.poll_once, if_pos hst]

/-- C2 (amended): a Data record whose instance and topic pass validation but
whose slot computation overflows `usize` or lands at or beyond
`MAX_STREAMS` is dropped silently: `write_record` bumps `dropped_streams`
by a **saturating** increment, performs no sink write, and returns success;
a `poll_once` that drains such a record returns `Progressed`. -/
theorem claim2_slot_overflow_drops {σ ε : Type} (cfg : Cfg) (R : Registry)
    (M : WriterModel σ ε) (s : ExpState σ) (ti inst ts : Nat) (bytes : List Nat)
    (h1 : inst < cfg.max_multi_ids) (h2 : ti < R.len)
    (h3 : USIZE_MAX < ti * cfg.max_multi_ids + inst
      ∨ cfg.max_streams ≤ ti * cfg.max_multi_ids + inst) :
    Exp.write_record cfg R M s (Rec.mk (RecordMeta.data ti inst ts) bytes)
      = (.ok (), ExpState.mk s.writer s.started s.subscribed
          (sat_add_u32 s.dropped_streams))
    ∧ (s.started = true → ∀ queue,
        Exp.poll_once cfg R M s (Rec.mk (RecordMeta.data ti inst ts) bytes :: queue)
          = (.ok .progressed,
              ExpState.mk s.writer s.started s.subscribed
                (sat_add_u32 s.dropped_streams), queue)) := by
  have hw : Exp.write_record cfg R M s (Rec.mk (RecordMeta.data ti inst ts) bytes)
      = (.ok (), ExpState.mk s.writer s.started s.subscribed
          (sat_add_u32 s.dropped_streams)) := by
    show (if cfg.max_multi_ids ≤ inst then _ else _) = _
    rw [if_neg (by omega), registry_entry_ok R ti h2, withOk_ok]
    rcases h3 with h3 | h3
    · rw [(stream_slot_none_iff cfg.max_multi_ids ti inst).mpr h3]
    · by_cases hof : USIZE_MAX < ti * cfg.max_multi_ids + inst
      · rw [(stream_slot_none_iff cfg.max_multi_ids ti inst).mpr hof]
      · rw [stream_slot_some cfg.max_multi_ids ti inst (by omega)]
        show (if cfg.max_streams ≤ ti * cfg.max_multi_ids + inst then _ else _) = _
        rw [if_pos h3]
  refine ⟨hw, fun hst queue => ?_⟩
  rw [poll_once_cons cfg R M s _ queue hst, hw]

/-- Counterexample to C2 as stated: with `dropped_streams` already at
`u32::MAX`, the record is still dropped successfully but the counter is not
incremented by one — `saturating_add` leaves it at `u32::MAX`. -/
theorem claim2_counterexample :
    Exp.write_record (Cfg.mk 4 1 0) (Registry.mk [MessageMeta.mk [] [] 0]) vecSink
        (ExpState.mk [] true [] (2 ^ 32 - 1)) (Rec.mk (RecordMeta.data 0 0 0) [])
      = (.ok (), ExpState.mk [] true [] (2 ^ 32 - 1))
    ∧ (ExpState.mk ([] : List Nat) true [] (2 ^ 32 - 1)).dropped_streams + 1
      ≠ (Exp.write_record (Cfg.mk 4 1 0) (Registry.mk [MessageMeta.mk [] [] 0]) vecSink
          (ExpState.mk [] true [] (2 ^ 32 - 1))
          (Rec.mk (RecordMeta.data 0 0 0) [])).2.dropped_streams := by
  refine ⟨?_, ?_⟩ <;> decide

/-- Witness for the amended C2 at a concrete exporter with
`MAX_STREAMS = 0`. -/
theorem claim2_witness :
    ((0 : Nat) < 1 ∧ (0 : Nat) < 1
      ∧ (USIZE_MAX < 0 * 1 + 0 ∨ (0 : Nat) ≤ 0 * 1 + 0))
    ∧ Exp.write_record (Cfg.mk 4 1 0) (Registry.mk [MessageMeta.mk [] [] 0]) vecSink
        (ExpState.mk [] true [] 0) (Rec.mk (RecordMeta.data 0 0 0) [])
      = (.ok (), ExpState.mk [] true [] (sat_add_u32 0)) :=
  ⟨⟨by decide, by decide, by decide⟩,
    (claim2_slot_overflow_drops (Cfg.mk 4 1 0) (Registry.mk [MessageMeta.mk [] [] 0])
      vecSink (ExpState.mk [] true [] 0) 0 0 0 [] (by decide)
      (by decide) (by decide)).1⟩

/-- C7: `parameter_i32`/`parameter_f32` synthesize the key
`"int32_t <name>"` / `"float <name>"` (8-plus-name and 6-plus-name bytes);
they drop — bumping the counter, touching neither the queue nor its state —
whenever the key exceeds `RECORD_CAP` or 255 bytes, and a key of exactly
255 bytes (fitting the record capacity) reaches the enqueue step with the
record built from that key. -/
theorem claim7_parameter_key_bounds {τ : Type} (cfg : Cfg) (T : TxModel τ)
    (p : PState) (t : τ) (name : List Nat) (v : Int) (bits : Nat) :
    (cfg.record_cap < 8 + name.length ∨ 255 < 8 + name.length →
      Producer.parameter_i32 cfg T p t name v = (.dropped, Producer.bump p, t))
    ∧ (cfg.record_cap < 6 + name.length ∨ 255 < 6 + name.length →
      Producer.parameter_f32 cfg T p t name bits = (.dropped, Producer.bump p, t))
    ∧ (8 + name.length = 255 → 255 ≤ cfg.record_cap →
      Producer.parameter_i32 cfg T p t name v
        = Producer.try_emit T p t
            (Rec.mk (RecordMeta.parameter (ParameterValue.i32 v))
              (Producer.int32_t_bytes ++ 32 :: name)))
    ∧ (6 + name.length = 255 → 255 ≤ cfg.record_cap →
      Producer.parameter_f32 cfg T p t name bits
        = Producer.try_emit T p t
            (Rec.mk (RecordMeta.parameter (ParameterValue.f32 bits))
              (Producer.float_bytes ++ 32 :: name))) := by
  have h7 : Producer.int32_t_bytes.length = 7 := rfl
  have h5 : Producer.float_bytes.length = 5 := rfl
  refine ⟨fun h => ?_, fun h => ?_, fun h255 hcap => ?_, fun h255 hcap => ?_⟩
  · rw [Producer.parameter_i32, Producer.parameter, if_pos (by rw [h7]; omega)]
  · rw [Producer.parameter_f32, Producer.parameter, if_pos (by rw [h5]; omega)]
  · rw [Producer.parameter_i32, Producer.parameter, if_neg (by rw [h7]; omega)]
    rw [Rec.new_parameter,
      if_neg (by simp only [List.length_append, List.length_cons, h7]; omega),
      if_pos (by simp only [List.length_append, List.length_cons, h7]; omega)]
  · rw [Producer.parameter_f32, Producer.parameter, if_neg (by rw [h5]; omega)]
    rw [Rec.new_parameter,
      if_neg (by simp only [List.length_append, List.length_cons, h5]; omega),
      if_pos (by simp only [List.length_append, List.length_cons, h5]; omega)]

/-- Witness for C7: an exactly-255-byte key is built and enqueued by an
accepting queue. -/
theorem claim7_witness :
    (8 + (List.replicate 247 97).length = 255 ∧ 255 ≤ (Cfg.mk 256 4 8).record_cap)
    ∧ Producer.parameter_i32 (Cfg.mk 256 4 8) listTx (PState.mk 0) (1, [])
        (List.replicate 247 97) 1
      = Producer.try_emit listTx (PState.mk 0) (1, [])
          (Rec.mk (RecordMeta.parameter (ParameterValue.i32 1))
            (Producer.int32_t_bytes ++ 32 :: List.replicate 247 97)) :=
  ⟨⟨by rw [List.length_replicate], by decide⟩,
    (claim7_parameter_key_bounds (Cfg.mk 256 4 8) listTx (PState.mk 0)
      ((1 : Nat), ([] : List Rec)) (List.replicate 247 97) 1 0).2.2.1
      (by rw [List.length_replicate]) (by decide)⟩

theorem pres_refl {σ : Type} (s : ExpState σ) : pres s s := ⟨rfl, rfl, rfl⟩

theorem pres_trans {σ : Type} {s s1 s2 : ExpState σ} (h1 : pres s s1)
    (h2 : pres s1 s2) : pres s s2 :=
  ⟨h2.1.trans h1.1, h2.2.1.trans h1.2.1, h2.2.2.trans h1.2.2⟩

theorem pres_write_all {σ ε : Type} (M : WriterModel σ ε) (s : ExpState σ)
    (b : List Nat) : pres s (Exp.write_all M s b).2 := by
  rw [Exp.write_all]
  rcases M.write_all s.writer b with ⟨r, w⟩
  cases r <;> exact ⟨rfl, rfl, rfl⟩

theorem pres_andThen {σ ε : Type} {s : ExpState σ}
    {x : Except (ExportError ε) Unit × ExpState σ}
    {f : ExpState σ → Except (ExportError ε) Unit × ExpState σ}
    (hx : pres s x.2) (hf : ∀ s1, pres s1 (f s1).2) :
    pres s (andThen x f).2 := by
  rcases x with ⟨r, t⟩
  cases r with
  | ok v => exact pres_trans hx (hf t)
  | error e => exact hx

theorem pres_withOk {σ ε α : Type} {s : ExpState σ} (x : Except (ExportError ε) α)
    {f : α → Except (ExportError ε) Unit × ExpState σ}
    (hf : ∀ a, pres s (f a).2) : pres s (withOk x s f).2 := by
  cases x with
  | ok a => exact hf a
  | error e => exact pres_refl s

theorem pres_write_parts {σ ε : Type} (M : WriterModel σ ε)
    (ps : List (List Nat)) : ∀ s : ExpState σ, pres s (Exp.write_parts M s ps).2 := by
  induction ps with
  | nil => exact fun s => pres_refl s
  | cons p ps ih =>
    exact fun s => pres_andThen (pres_write_all M s p) (fun s1 => ih s1)

theorem pres_write_message_parts {σ ε : Type} (M : WriterModel σ ε)
    (s : ExpState σ) (t : Nat) (parts : List (List Nat)) :
    pres s (Exp.write_message_parts M s t parts).2 := by
  rw [Exp.write_message_parts]
  exact pres_withOk _ (fun n => pres_withOk _ (fun hdr =>
    pres_andThen (pres_write_all M s hdr) (fun s1 => pres_write_parts M parts s1)))

theorem pres_write_message {σ ε : Type} (M : WriterModel σ ε) (s : ExpState σ)
    (t : Nat) (payload : List Nat) : pres s (Exp.write_message M s t payload).2 := by
  rw [Exp.write_message]
  exact pres_withOk _ (fun hdr =>
    pres_andThen (pres_write_all M s hdr) (fun s1 => pres_write_all M s1 payload))

theorem pres_write_flag_bits {σ ε : Type} (M : WriterModel σ ε) (s : ExpState σ) :
    pres s (Exp.write_flag_bits M s).2 :=
  pres_write_message M s 66 (List.replicate 40 0)

theorem pres_write_format {σ ε : Type} (M : WriterModel σ ε) (s : ExpState σ)
    (name format : List Nat) : pres s (Exp.write_format M s name format).2 := by
  rw [Exp.write_format]
  exact pres_withOk _ (fun _ => pres_write_message_parts M s 70 _)

theorem pres_write_formats {σ ε : Type} (M : WriterModel σ ε)
    (entries : List MessageMeta) :
    ∀ s : ExpState σ, pres s (Exp.write_formats M s entries).2 := by
  induction entries with
  | nil => exact fun s => pres_refl s
  | cons m rest ih =>
    exact fun s =>
      pres_andThen (pres_write_format M s m.name m.format) (fun s1 => ih s1)

theorem andThen_eq_err {σ ε : Type} {x : Except (ExportError ε) Unit × ExpState σ}
    {f : ExpState σ → Except (ExportError ε) Unit × ExpState σ}
    {e : ExportError ε} {s' : ExpState σ} (h : andThen x f = (.error e, s')) :
    x = (.error e, s') ∨ ∃ s1, x = (.ok (), s1) ∧ f s1 = (.error e, s') := by
  rcases x with ⟨r, t⟩
  cases r with
  | ok v => exact Or.inr ⟨t, rfl, h⟩
  | error e2 => exact Or.inl h

/-- C10: when any write of the startup sequence fails with `Write(E)`,
`emit_startup` leaves the exporter un-started: `started` remains `false`
(the flag is only set after the header, the flag-bits frame and every
format frame succeeded), `subscribed` and `dropped_streams` are untouched,
`poll_once` still answers `Idle` without touching the queue, and a later
`emit_startup` runs the full startup body again, beginning with the file
header. -/
theorem claim10_startup_failure_atomic {σ ε : Type} (cfg : Cfg) (R : Registry)
    (M : WriterModel σ ε) (s : ExpState σ) (ts : Nat) (we : ε)
    (s' : ExpState σ)
    (h : Exp.emit_startup R M s ts = (.error (ExportError.write we), s')) :
    s.started = false ∧ s'.started = false
    ∧ s'.subscribed = s.subscribed ∧ s'.dropped_streams = s.dropped_streams
    ∧ (∀ queue, Exp.poll_once cfg R M s' queue = (.ok .idle, s', queue))
    ∧ (∀ ts2, Exp.emit_startup R M s' ts2 = Exp.emit_startup_body R M s' ts2) := by
  have hstart : s.started = false := by
    by_cases hs : s.started = true
    · rw [Exp.emit_startup, if_pos hs] at h
      simp [Prod.ext_iff] at h
    · simpa using hs
  rw [Exp.emit_startup, if_neg (by simp [hstart]), Exp.emit_startup_body] at h
  have hpres : pres s s' := by
    rcases andThen_eq_err h with h1 | ⟨s1, hx, h1⟩
    · have hp := pres_write_all M s (write_header ts)
      rw [h1] at hp
      exact hp
    · have hp1 : pres s s1 := by
        have hp := pres_write_all M s (write_header ts)
        rw [hx] at hp
        exact hp
      rcases andThen_eq_err h1 with h2 | ⟨s2, hy, h2⟩
      · have hp := pres_write_flag_bits M s1
        rw [h2] at hp
        exact pres_trans hp1 hp
      · have hp2 : pres s1 s2 := by
          have hp := pres_write_flag_bits M s1
          rw [hy] at hp
          exact hp
        rcases andThen_eq_err h2 with h3 | ⟨s3, hz, h3⟩
        · have hp := pres_write_formats M R.entries s2
          rw [h3] at hp
          exact pres_trans hp1 (pres_trans hp2 hp)
        · simp [Prod.ext_iff] at h3
  obtain ⟨hst', hsub, hdrop⟩ := hpres
  rw [hstart] at hst'
  refine ⟨hstart, hst', hsub, hdrop, fun queue => ?_, fun ts2 => ?_⟩
  · rw [Exp.poll_once.eq_def, if_neg (by simp [hst'])]
  · rw [Exp.emit_startup, if_neg (by simp [hst'])]

/-- Witness for C10: a sink whose every write fails makes the very first
header write of `emit_startup` fail, and the exporter state is returned
unchanged and un-started. -/
theorem claim10_witness :
    Exp.emit_startup (Registry.mk []) failSink
        (ExpState.new (Cfg.mk 4 1 2) (0, [])) 0
      = (.error (ExportError.write ()), ExpState.new (Cfg.mk 4 1 2) (0, []))
    ∧ (ExpState.new (Cfg.mk 4 1 2) ((0 : Nat), ([] : List Nat))).started = false
    ∧ Exp.poll_once (Cfg.mk 4 1 2) (Registry.mk []) failSink
        (ExpState.new (Cfg.mk 4 1 2) (0, [])) []
      = (.ok .idle, ExpState.new (Cfg.mk 4 1 2) (0, []), [])
    ∧ Exp.emit_startup (Registry.mk []) failSink
        (ExpState.new (Cfg.mk 4 1 2) (0, [])) 7
      = Exp.emit_startup_body (Registry.mk []) failSink
          (ExpState.new (Cfg.mk 4 1 2) (0, [])) 7 :=
  ⟨by decide,
    (claim10_startup_failure_atomic (Cfg.mk 4 1 2) (Registry.mk []) failSink
      (ExpState.new (Cfg.mk 4 1 2) (0, [])) 0 ()
      (ExpState.new (Cfg.mk 4 1 2) (0, [])) (by decide)).1,
    (claim10_startup_failure_atomic (Cfg.mk 4 1 2) (Registry.mk []) failSink
      (ExpState.new (Cfg.mk 4 1 2) (0, [])) 0 ()
      (ExpState.new (Cfg.mk 4 1 2) (0, [])) (by decide)).2.2.2.2.1 [],
    (claim10_startup_failure_atomic (Cfg.mk 4 1 2) (Registry.mk []) failSink
      (ExpState.new (Cfg.mk 4 1 2) (0, [])) 0 ()
      (ExpState.new (Cfg.mk 4 1 2) (0, [])) (by decide)).2.2.2.2.2 7⟩

theorem try_emit_cases {τ : Type} (T : TxModel τ) (p : PState) (t : τ) (r : Rec) :
    ((Producer.try_emit T p t r).1 = .emitted ∧ (Producer.try_emit T p t r).2.1 = p)
    ∨ ((Producer.try_emit T p t r).1 = .dropped
        ∧ (Producer.try_emit T p t r).2.1 = Producer.bump p) := by
  rw [Producer.try_emit]
  rcases T.try_send t r with ⟨res, t1⟩
  cases res with
  | ok v => exact Or.inl ⟨rfl, rfl⟩
  | error e => exact Or.inr ⟨rfl, rfl⟩

theorem run_op_cases {τ : Type} (cfg : Cfg) (R : Registry) (T : TxModel τ)
    (p : PState) (t : τ) (op : Producer.POp) :
    ((Producer.run_op cfg R T p t op).1 = .emitted
      ∧ (Producer.run_op cfg R T p t op).2.1 = p)
    ∨ ((Producer.run_op cfg R T p t op).1 = .dropped
      ∧ (Producer.run_op cfg R T p t op).2.1 = Producer.bump p) := by
  cases op with
  | log level ts msg => exact try_emit_cases T p t _
  | logTagged level tag ts msg => exact try_emit_cases T p t _
  | paramI32 name v =>
    simp only [Producer.run_op, Producer.parameter_i32, Producer.parameter]
    split
    · exact Or.inr ⟨rfl, rfl⟩
    · split
      · exact try_emit_cases T p t _
      · exact Or.inr ⟨rfl, rfl⟩
  | paramF32 name bits =>
    simp only [Producer.run_op, Producer.parameter_f32, Producer.parameter]
    split
    · exact Or.inr ⟨rfl, rfl⟩
    · split
      · exact try_emit_cases T p t _
      · exact Or.inr ⟨rfl, rfl⟩
  | dataInst ti inst ts enc =>
    simp only [Producer.run_op, Producer.data_instance]
    split
    · exact Or.inr ⟨rfl, rfl⟩
    · split
      · exact Or.inr ⟨rfl, rfl⟩
      · split
        · exact Or.inr ⟨rfl, rfl⟩
        · split
          · exact Or.inr ⟨rfl, rfl⟩
          · split
            · exact try_emit_cases T p t _
            · exact Or.inr ⟨rfl, rfl⟩
  | dataOp ti ts enc =>
    simp only [Producer.run_op, Producer.data, Producer.data_instance]
    split
    · exact Or.inr ⟨rfl, rfl⟩
    · split
      · exact Or.inr ⟨rfl, rfl⟩
      · split
        · exact Or.inr ⟨rfl, rfl⟩
        · split
          · exact Or.inr ⟨rfl, rfl⟩
          · split
            · exact try_emit_cases T p t _
            · exact Or.inr ⟨rfl, rfl⟩

theorem run_ops_dropped_total {τ : Type} (cfg : Cfg) (R : Registry)
    (T : TxModel τ) (ops : List Producer.POp) :
    ∀ (p : PState) (t : τ), p.dropped_total < 2 ^ 32 →
      ((Producer.run_ops cfg R T p t ops).2.1).dropped_total
        = (p.dropped_total + dropped_in (Producer.run_ops cfg R T p t ops).1)
            % 2 ^ 32 := by
  induction ops with
  | nil =>
    intro p t hp
    simp only [Producer.run_ops, dropped_in, List.countP_nil, Nat.add_zero]
    omega
  | cons op rest ih =>
    intro p t hp
    rcases run_op_cases cfg R T p t op with ⟨h1, h2⟩ | ⟨h1, h2⟩ <;>
      rw [Producer.run_ops, h1, h2] <;>
      simp only [dropped_in, List.countP_cons]
    · have := ih p (Producer.run_op cfg R T p t op).2.2 hp
      simp only [dropped_in] at this
      simp [this]
    · have hb : (Producer.bump p).dropped_total < 2 ^ 32 := by
        rw [Producer.bump]
        exact Nat.mod_lt _ (by norm_num)
      have hrec := ih (Producer.bump p) (Producer.run_op cfg R T p t op).2.2 hb
      simp only [dropped_in] at hrec
      rw [hrec]
      simp only [Producer.bump,
        show (if (EmitStatus.dropped == EmitStatus.dropped) = true
          then (1 : Nat) else 0) = 1 from rfl]
      omega

/-- C6 (amended): every public producer call returns `Emitted` leaving
`dropped_total` unchanged, or `Dropped` advancing it by one **modulo
`2^32`** (the counter is a wrapping `u32`); consequently, over any call
sequence from a fresh producer, `dropped_count()` equals the number of
calls that returned `Dropped`, modulo `2^32`. -/
theorem claim6_dropped_accounting :
    (∀ (τ : Type) (cfg : Cfg) (R : Registry) (T : TxModel τ) (p : PState)
        (t : τ) (op : Producer.POp),
      ((Producer.run_op cfg R T p t op).1 = .emitted
        ∧ (Producer.run_op cfg R T p t op).2.1 = p)
      ∨ ((Producer.run_op cfg R T p t op).1 = .dropped
        ∧ (Producer.run_op cfg R T p t op).2.1
            = PState.mk ((p.dropped_total + 1) % 2 ^ 32)))
    ∧ (∀ (τ : Type) (cfg : Cfg) (R : Registry) (T : TxModel τ) (t : τ)
        (ops : List Producer.POp),
      Producer.dropped_count (Producer.run_ops cfg R T (PState.mk 0) t ops).2.1
        = dropped_in (Producer.run_ops cfg R T (PState.mk 0) t ops).1 % 2 ^ 32) :=
  ⟨fun _ cfg R T p t op => run_op_cases cfg R T p t op,
   fun _ cfg R T t ops => by
     have := run_ops_dropped_total cfg R T ops (PState.mk 0) t (by norm_num)
     simpa [Producer.dropped_count] using this⟩

theorem run_ops_replicate_log (cfg : Cfg) (R : Registry) (n : Nat) :
    ∀ d : Nat, d < 2 ^ 32 →
      Producer.run_ops cfg R fullTx (PState.mk d) ()
          (List.replicate n (Producer.POp.log LogLevel.info 0 []))
        = (List.replicate n EmitStatus.dropped,
            PState.mk ((d + n) % 2 ^ 32), ()) := by
  induction n with
  | zero =>
    intro d hd
    simp only [List.replicate, Producer.run_ops, Prod.mk.injEq, PState.mk.injEq,
      true_and, and_true]
    omega
  | succ n ih =>
    intro d hd
    rw [List.replicate_succ, Producer.run_ops]
    have hop : Producer.run_op cfg R fullTx (PState.mk d) ()
        (Producer.POp.log LogLevel.info 0 [])
        = (EmitStatus.dropped, PState.mk ((d + 1) % 2 ^ 32), ()) := rfl
    rw [hop]
    show (EmitStatus.dropped :: _, _) = _
    rw [ih ((d + 1) % 2 ^ 32) (Nat.mod_lt _ (by norm_num))]
    simp only [List.replicate_succ, Prod.mk.injEq, List.cons.injEq,
      PState.mk.injEq, true_and, and_true]
    omega

/-- Counterexample to C6 as stated: after `2^32` calls that all returned
`Dropped` (a producer whose queue is always full), `dropped_count()` is `0`
while the number of `Dropped`-returning calls is `2^32` — the wrapping
`u32` counter cannot equal the count, and monotonicity fails at the wrap. -/
theorem claim6_counterexample :
    Producer.dropped_count
        (Producer.run_ops (Cfg.mk 4 1 4) (Registry.mk []) fullTx (PState.mk 0) ()
          (List.replicate (2 ^ 32) (Producer.POp.log LogLevel.info 0 []))).2.1
      ≠ dropped_in
          (Producer.run_ops (Cfg.mk 4 1 4) (Registry.mk []) fullTx (PState.mk 0) ()
            (List.replicate (2 ^ 32) (Producer.POp.log LogLevel.info 0 []))).1 := by
  rw [run_ops_replicate_log (Cfg.mk 4 1 4) (Registry.mk []) (2 ^ 32) 0 (by norm_num)]
  have hcount : dropped_in (List.replicate (2 ^ 32) EmitStatus.dropped) = 2 ^ 32 := by
    rw [dropped_in, List.countP_replicate]
    simp
  simp only [hcount, Producer.dropped_count]
  norm_num

theorem is_sub_frame_of_ne_type (slot t : Nat) (p : List Nat) (h : t ≠ 65) :
    is_sub_frame slot (t, p) = false := by
  simp [is_sub_frame, h]

theorem is_data_frame_of_ne_type (slot t : Nat) (p : List Nat) (h : t ≠ 68) :
    is_data_frame slot (t, p) = false := by
  simp [is_data_frame, h]

theorem is_sub_frame_sub (slot0 mid slot : Nat) (name : List Nat)
    (h : slot ≤ 65535) :
    is_sub_frame slot0 (65, add_subscription_prefix_bytes mid slot ++ name)
      = (slot == slot0) := by
  show is_sub_frame slot0
      (65, mid % 256 :: slot % 256 :: slot / 256 % 256 :: name) = _
  simp only [is_sub_frame, beq_self_eq_true, Bool.true_and]
  rw [decode_le16 slot h]

theorem is_data_frame_sub (slot0 mid slot : Nat) (name : List Nat) :
    is_data_frame slot0 (65, add_subscription_prefix_bytes mid slot ++ name)
      = false :=
  is_data_frame_of_ne_type slot0 65 _ (by omega)

theorem is_data_frame_data (slot0 slot : Nat) (data : List Nat)
    (h : slot ≤ 65535) :
    is_data_frame slot0 (68, data_prefix_bytes slot ++ data) = (slot == slot0) := by
  show is_data_frame slot0 (68, slot % 256 :: slot / 256 % 256 :: data) = _
  simp only [is_data_frame, beq_self_eq_true, Bool.true_and]
  rw [decode_le16 slot h]

theorem is_sub_frame_data (slot0 slot : Nat) (data : List Nat) :
    is_sub_frame slot0 (68, data_prefix_bytes slot ++ data) = false :=
  is_sub_frame_of_ne_type slot0 68 _ (by omega)

theorem count_sub_nil (slot : Nat) : count_sub slot [] = 0 := rfl

theorem count_data_nil (slot : Nat) : count_data slot [] = 0 := rfl

theorem count_sub_cons (slot : Nat) (f : Nat × List Nat)
    (fs : List (Nat × List Nat)) :
    count_sub slot (f :: fs)
      = count_sub slot fs + (if is_sub_frame slot f then 1 else 0) := by
  simp [count_sub, List.countP_cons]

theorem count_data_cons (slot : Nat) (f : Nat × List Nat)
    (fs : List (Nat × List Nat)) :
    count_data slot (f :: fs)
      = count_data slot fs + (if is_data_frame slot f then 1 else 0) := by
  simp [count_data, List.countP_cons]

theorem count_sub_append (slot : Nat) (fs1 fs2 : List (Nat × List Nat)) :
    count_sub slot (fs1 ++ fs2) = count_sub slot fs1 + count_sub slot fs2 := by
  simp [count_sub, List.countP_append]

theorem count_data_append (slot : Nat) (fs1 fs2 : List (Nat × List Nat)) :
    count_data slot (fs1 ++ fs2) = count_data slot fs1 + count_data slot fs2 := by
  simp [count_data, List.countP_append]

theorem count_sub_take_le (slot : Nat) (fs : List (Nat × List Nat)) (n : Nat) :
    count_sub slot (fs.take n) ≤ count_sub slot fs := by
  conv_rhs => rw [← List.take_append_drop n fs]
  rw [count_sub_append]
  omega

theorem count_data_take_le (slot : Nat) (fs : List (Nat × List Nat)) (n : Nat) :
    count_data slot (fs.take n) ≤ count_data slot fs := by
  conv_rhs => rw [← List.take_append_drop n fs]
  rw [count_data_append]
  omega

theorem slot_injective (m ti i ti0 i0 : Nat) (hi : i < m) (hi0 : i0 < m)
    (hne : ¬(ti = ti0 ∧ i = i0)) : ti * m + i ≠ ti0 * m + i0 := by
  rcases Nat.lt_trichotomy ti ti0 with h | h | h
  · have : (ti + 1) * m ≤ ti0 * m := Nat.mul_le_mul_right m h
    rw [Nat.add_mul, Nat.one_mul] at this
    omega
  · subst h
    have : i ≠ i0 := fun he => hne ⟨rfl, he⟩
    omega
  · have : (ti0 + 1) * m ≤ ti * m := Nat.mul_le_mul_right m h
    rw [Nat.add_mul, Nat.one_mul] at this
    omega

theorem registry_entry_err {ε : Type} (R : Registry) (i : Nat) (h : R.len ≤ i) :
    registry_entry (ε := ε) R i = .error .invalidTopicIndex := by
  rw [Registry.len] at h
  rw [registry_entry, Registry.get, if_pos h]

theorem write_log_err {σ ε : Type} (M : WriterModel σ ε) (s : ExpState σ)
    (level ts : Nat) (text : List Nat) (h : ¬ 9 + text.length ≤ 65535) :
    Exp.write_log M s level ts text = (.error .messageTooLarge, s) := by
  rw [Exp.write_log, log_payload_len, if_neg h, withOk_err]

theorem write_tagged_log_err {σ ε : Type} (M : WriterModel σ ε) (s : ExpState σ)
    (level tag ts : Nat) (text : List Nat) (h : ¬ 11 + text.length ≤ 65535) :
    Exp.write_tagged_log M s level tag ts text = (.error .messageTooLarge, s) := by
  rw [Exp.write_tagged_log, tagged_log_payload_len, if_neg h, withOk_err]

theorem write_data_err {σ ε : Type} (M : WriterModel σ ε) (s : ExpState σ)
    (msg_id : Nat) (data : List Nat) (h : ¬ 2 + data.length ≤ 65535) :
    Exp.write_data M s msg_id data = (.error .messageTooLarge, s) := by
  rw [Exp.write_data, data_payload_len, if_neg h, withOk_err]

theorem write_add_subscription_err {σ ε : Type} (M : WriterModel σ ε)
    (s : ExpState σ) (multi_id msg_id : Nat) (name : List Nat)
    (h : ¬ 3 + name.length ≤ 65535) :
    Exp.write_add_subscription M s multi_id msg_id name
      = (.error .messageTooLarge, s) := by
  rw [Exp.write_add_subscription, add_subscription_payload_len, if_neg h, withOk_err]

theorem write_parameter_err {σ ε : Type} (M : WriterModel σ ε) (s : ExpState σ)
    (key : List Nat) (value : ParameterValue) (hk : ¬ key.length ≤ 255) :
    Exp.write_parameter M s key value = (.error .messageTooLarge, s) := by
  by_cases h2 : 1 + key.length + value.leBytes.length ≤ 65535
  · show withOk (parameter_payload_len key value.leBytes) s _ = _
    rw [parameter_payload_len, if_pos h2, withOk_ok, parameter_prefix_bytes,
      if_neg hk, withOk_err]
  · show withOk (parameter_payload_len key value.leBytes) s _ = _
    rw [parameter_payload_len, if_neg h2, withOk_err]

theorem is_data_record_data (ti0 inst0 ti inst ts : Nat) (bytes : List Nat) :
    is_data_record ti0 inst0 (Rec.mk (RecordMeta.data ti inst ts) bytes) = true
      ↔ ti = ti0 ∧ inst = inst0 := by
  simp [is_data_record]

theorem ok_pair_inj {σ ε : Type} {a b : ExpState σ}
    (h : ((Except.ok () : Except (ExportError ε) Unit), a) = (.ok (), b)) :
    a = b :=
  congrArg Prod.snd h

/-- One successful `write_record` over the recording sink, observed at the
granularity of one fixed slot `slot0 = ti0 * MAX_MULTI_IDS + inst0`: the
bytes it appends parse to a frame list `nfs`, and `nfs` together with the
`subscribed` flag of `slot0` behaves as the lazy-subscription protocol
dictates. -/
theorem write_record_ok_step (cfg : Cfg) (R : Registry)
    (s s' : ExpState (List Nat)) (r : Rec) (ti0 inst0 slot0 : Nat)
    (hw : Exp.write_record cfg R vecSink s r = (.ok (), s'))
    (hslot : slot0 = ti0 * cfg.max_multi_ids + inst0)
    (hi0 : inst0 < cfg.max_multi_ids)
    (hm0 : slot0 < cfg.max_streams)
    (hu0 : slot0 < 65536)
    (hlen : s.subscribed.length = cfg.max_streams) :
    ∃ chunk nfs,
      s'.writer = s.writer ++ chunk
      ∧ (∀ rest, parse_frames (chunk ++ rest) = nfs ++ parse_frames rest)
      ∧ s'.subscribed.length = cfg.max_streams
      ∧ (is_data_record ti0 inst0 r = false →
          count_sub slot0 nfs = 0 ∧ count_data slot0 nfs = 0
          ∧ s'.subscribed.getD slot0 0 = s.subscribed.getD slot0 0)
      ∧ (is_data_record ti0 inst0 r = true →
          s.subscribed.getD slot0 0 = 0 →
          count_sub slot0 nfs = 1 ∧ count_data slot0 nfs = 1
          ∧ (∀ n, 0 < count_data slot0 (nfs.take n)
              → 0 < count_sub slot0 (nfs.take n))
          ∧ s'.subscribed.getD slot0 0 = 1)
      ∧ (is_data_record ti0 inst0 r = true →
          s.subscribed.getD slot0 0 ≠ 0 →
          count_sub slot0 nfs = 0 ∧ count_data slot0 nfs = 1
          ∧ s'.subscribed.getD slot0 0 = s.subscribed.getD slot0 0) := by
  obtain ⟨meta, bytes⟩ := r
  cases meta with
  | loggedString level tag ts =>
    have hfalse : is_data_record ti0 inst0
        (Rec.mk (RecordMeta.loggedString level tag ts) bytes) = false := rfl
    cases tag with
    | none =>
      have hw' : Exp.write_log vecSink s level.toByte ts bytes = (.ok (), s') := hw
      by_cases hb : 9 + bytes.length ≤ 65535
      · rw [write_log_vec s level.toByte ts bytes hb] at hw'
        have hs := ok_pair_inj hw'
        subst hs
        refine ⟨frame_bytes 76 (log_prefix_bytes level.toByte ts ++ bytes),
          [(76, log_prefix_bytes level.toByte ts ++ bytes)], by simp, ?_, by simpa,
          ?_, ?_, ?_⟩
        · intro rest
          rw [parse_frames_cons 76 _ rest
            (by simp [log_prefix_bytes, le_bytes_length]; omega)]
          simp
        · intro hfl
          refine ⟨?_, ?_, rfl⟩
          · rw [count_sub_cons, count_sub_nil,
              is_sub_frame_of_ne_type slot0 76 _ (by omega)]
            simp
          · rw [count_data_cons, count_data_nil,
              is_data_frame_of_ne_type slot0 76 _ (by omega)]
            simp
        · intro hrec
          rw [hfalse] at hrec
          exact Bool.noConfusion hrec
        · intro hrec
          rw [hfalse] at hrec
          exact Bool.noConfusion hrec
      · rw [write_log_err vecSink s level.toByte ts bytes hb] at hw'
        simp [Prod.ext_iff] at hw'
    | some tag =>
      have hw' : Exp.write_tagged_log vecSink s level.toByte tag ts bytes
          = (.ok (), s') := hw
      by_cases hb : 11 + bytes.length ≤ 65535
      · rw [write_tagged_log_vec s level.toByte tag ts bytes hb] at hw'
        have hs := ok_pair_inj hw'
        subst hs
        refine ⟨frame_bytes 67 (tagged_log_prefix_bytes level.toByte tag ts ++ bytes),
          [(67, tagged_log_prefix_bytes level.toByte tag ts ++ bytes)], by simp, ?_,
          by simpa, ?_, ?_, ?_⟩
        · intro rest
          rw [parse_frames_cons 67 _ rest
            (by simp [tagged_log_prefix_bytes, le_bytes_length]; omega)]
          simp
        · intro hfl
          refine ⟨?_, ?_, rfl⟩
          · rw [count_sub_cons, count_sub_nil,
              is_sub_frame_of_ne_type slot0 67 _ (by omega)]
            simp
          · rw [count_data_cons, count_data_nil,
              is_data_frame_of_ne_type slot0 67 _ (by omega)]
            simp
        · intro hrec
          rw [hfalse] at hrec
          exact Bool.noConfusion hrec
        · intro hrec
          rw [hfalse] at hrec
          exact Bool.noConfusion hrec
      · rw [write_tagged_log_err vecSink s level.toByte tag ts bytes hb] at hw'
        simp [Prod.ext_iff] at hw'
  | parameter value =>
    have hfalse : is_data_record ti0 inst0
        (Rec.mk (RecordMeta.parameter value) bytes) = false := rfl
    have hw' : Exp.write_parameter vecSink s bytes value = (.ok (), s') := hw
    by_cases hk : bytes.length ≤ 255
    · rw [write_parameter_vec s bytes value hk] at hw'
      have hs := ok_pair_inj hw'
      subst hs
      refine ⟨frame_bytes 80 (bytes.length :: (bytes ++ value.leBytes)),
        [(80, bytes.length :: (bytes ++ value.leBytes))], by simp, ?_, by simpa,
        ?_, ?_, ?_⟩
      · intro rest
        rw [parse_frames_cons 80 _ rest
          (by simp [leBytes_length]; omega)]
        simp
      · intro hfl
        refine ⟨?_, ?_, rfl⟩
        · rw [count_sub_cons, count_sub_nil,
            is_sub_frame_of_ne_type slot0 80 _ (by omega)]
          simp
        · rw [count_data_cons, count_data_nil,
            is_data_frame_of_ne_type slot0 80 _ (by omega)]
          simp
      · intro hrec
        rw [hfalse] at hrec
        exact Bool.noConfusion hrec
      · intro hrec
        rw [hfalse] at hrec
        exact Bool.noConfusion hrec
    · rw [write_parameter_err vecSink s bytes value hk] at hw'
      simp [Prod.ext_iff] at hw'
  | data ti inst ts =>
    have hw' : (if cfg.max_multi_ids ≤ inst then
          ((.error .invalidMultiId, s) : Except (ExportError Empty) Unit × ExpState (List Nat))
        else withOk (registry_entry R ti) s (fun meta =>
          match stream_slot cfg.max_multi_ids ti inst with
          | none => (.ok (), { s with dropped_streams := sat_add_u32 s.dropped_streams })
          | some slot =>
            if cfg.max_streams ≤ slot then
              (.ok (), { s with dropped_streams := sat_add_u32 s.dropped_streams })
            else
              withOk (slot_msg_id slot) s (fun msg_id =>
                if s.subscribed.getD slot 0 == 0 then
                  andThen (Exp.write_add_subscription vecSink s inst msg_id meta.name)
                    (fun s1 =>
                      Exp.write_data vecSink
                        { s1 with subscribed := s1.subscribed.set slot 1 }
                        msg_id bytes)
                else Exp.write_data vecSink s msg_id bytes)))
        = (.ok (), s') := hw
    by_cases hinst : cfg.max_multi_ids ≤ inst
    · rw [if_pos hinst] at hw'
      simp [Prod.ext_iff] at hw'
    rw [if_neg hinst] at hw'
    by_cases hti : ti < R.len
    swap
    · rw [registry_entry_err R ti (by omega), withOk_err] at hw'
      simp [Prod.ext_iff] at hw'
    rw [registry_entry_ok R ti hti, withOk_ok] at hw'
    by_cases hof : USIZE_MAX < ti * cfg.max_multi_ids + inst
    · rw [(stream_slot_none_iff cfg.max_multi_ids ti inst).mpr hof] at hw'
      have hs := ok_pair_inj hw'
      subst hs
      refine ⟨[], [], by simp, by intro rest; simp, by simpa, ?_, ?_, ?_⟩
      · intro hfl
        exact ⟨count_sub_nil slot0, count_data_nil slot0, rfl⟩
      · intro hrec hfl0
        obtain ⟨rfl, rfl⟩ := (is_data_record_data ti0 inst0 ti inst ts bytes).mp hrec
        rw [← hslot] at hof
        have : (65536 : Nat) ≤ USIZE_MAX := by rw [USIZE_MAX]; omega
        omega
      · intro hrec hfl
        obtain ⟨rfl, rfl⟩ := (is_data_record_data ti0 inst0 ti inst ts bytes).mp hrec
        rw [← hslot] at hof
        have : (65536 : Nat) ≤ USIZE_MAX := by rw [USIZE_MAX]; omega
        omega
    rw [stream_slot_some cfg.max_multi_ids ti inst (by omega)] at hw'
    simp only [] at hw'
    by_cases hms : cfg.max_streams ≤ ti * cfg.max_multi_ids + inst
    · rw [if_pos hms] at hw'
      have hs := ok_pair_inj hw'
      subst hs
      refine ⟨[], [], by simp, by intro rest; simp, by simpa, ?_, ?_, ?_⟩
      · intro hfl
        exact ⟨count_sub_nil slot0, count_data_nil slot0, rfl⟩
      · intro hrec hfl0
        obtain ⟨rfl, rfl⟩ := (is_data_record_data ti0 inst0 ti inst ts bytes).mp hrec
        rw [← hslot] at hms
        omega
      · intro hrec hfl
        obtain ⟨rfl, rfl⟩ := (is_data_record_data ti0 inst0 ti inst ts bytes).mp hrec
        rw [← hslot] at hms
        omega
    rw [if_neg hms] at hw'
    by_cases hu : ti * cfg.max_multi_ids + inst ≤ 65535
    swap
    · rw [slot_msg_id, if_neg hu, withOk_err] at hw'
      simp [Prod.ext_iff] at hw'
    rw [slot_msg_id, if_pos hu, withOk_ok] at hw'
    by_cases hpair : ti = ti0 ∧ inst = inst0
    · obtain ⟨rfl, rfl⟩ := hpair
      rw [← hslot] at hw' hms hu
      by_cases hfl : s.subscribed.getD slot0 0 = 0
      · rw [if_pos (beq_iff_eq.mpr hfl)] at hw'
        by_cases ha : 3 + (R.entries.get ⟨ti, hti⟩).name.length ≤ 65535
        swap
        · rw [write_add_subscription_err vecSink s inst slot0 _ ha, andThen_err] at hw'
          simp [Prod.ext_iff] at hw'
        rw [write_add_subscription_vec s inst slot0 _ ha, andThen_ok] at hw'
        by_cases hd : 2 + bytes.length ≤ 65535
        swap
        · rw [write_data_err vecSink _ slot0 bytes hd] at hw'
          simp [Prod.ext_iff] at hw'
        rw [write_data_vec _ slot0 bytes hd] at hw'
        have hs := ok_pair_inj hw'
        subst hs
        refine ⟨frame_bytes 65 (add_subscription_prefix_bytes inst slot0
              ++ (R.entries.get ⟨ti, hti⟩).name)
            ++ frame_bytes 68 (data_prefix_bytes slot0 ++ bytes),
          [(65, add_subscription_prefix_bytes inst slot0
              ++ (R.entries.get ⟨ti, hti⟩).name),
           (68, data_prefix_bytes slot0 ++ bytes)], by simp, ?_, by simpa, ?_, ?_, ?_⟩
        · intro rest
          rw [List.append_assoc, parse_frames_cons 65 _ _
            (by simp only [List.length_append, List.length_cons,
              add_subscription_prefix_bytes, le_bytes_length]; omega)]
          rw [parse_frames_cons 68 _ rest
            (by simp [data_prefix_bytes, le_bytes_length]; omega)]
          simp
        · intro hrec
          rw [(is_data_record_data ti inst ti inst ts bytes).mpr ⟨rfl, rfl⟩] at hrec
          exact Bool.noConfusion hrec
        · intro hrec hfl0
          refine ⟨?_, ?_, ?_, ?_⟩
          · rw [count_sub_cons, count_sub_cons, count_sub_nil,
              is_sub_frame_sub slot0 inst slot0 _ hu,
              is_sub_frame_data slot0 slot0 bytes]
            simp
          · rw [count_data_cons, count_data_cons, count_data_nil,
              is_data_frame_sub slot0 inst slot0 _,
              is_data_frame_data slot0 slot0 bytes hu]
            simp
          · intro n hn
            match n with
            | 0 => simp [count_data_nil] at hn
            | 1 =>
              rw [List.take_one] at hn
              simp only [List.head?_cons, Option.toList_some] at hn
              rw [count_data_cons, count_data_nil, is_data_frame_sub slot0 inst slot0 _] at hn
              simp at hn
            | (n + 2) =>
              rw [List.take_of_length_le (by simp)]
              rw [count_sub_cons, count_sub_cons, count_sub_nil,
                is_sub_frame_sub slot0 inst slot0 _ hu]
              simp
          · show (s.subscribed.set slot0 1).getD slot0 0 = 1
            simp [List.getD_eq_getElem?_getD, List.getElem?_set_self,
              (by omega : slot0 < s.subscribed.length)]
        · intro hrec hfl2
          exact absurd hfl hfl2
      · rw [if_neg (fun hc => hfl (beq_iff_eq.mp hc))] at hw'
        by_cases hd : 2 + bytes.length ≤ 65535
        swap
        · rw [write_data_err vecSink s slot0 bytes hd] at hw'
          simp [Prod.ext_iff] at hw'
        rw [write_data_vec s slot0 bytes hd] at hw'
        have hs := ok_pair_inj hw'
        subst hs
        refine ⟨frame_bytes 68 (data_prefix_bytes slot0 ++ bytes),
          [(68, data_prefix_bytes slot0 ++ bytes)], by simp, ?_, by simpa, ?_, ?_, ?_⟩
        · intro rest
          rw [parse_frames_cons 68 _ rest
            (by simp [data_prefix_bytes, le_bytes_length]; omega)]
          simp
        · intro hrec
          rw [(is_data_record_data ti inst ti inst ts bytes).mpr ⟨rfl, rfl⟩] at hrec
          exact Bool.noConfusion hrec
        · intro hrec hfl0
          exact absurd hfl0 hfl
        · intro hrec hfl2
          refine ⟨?_, ?_, rfl⟩
          · rw [count_sub_cons, count_sub_nil, is_sub_frame_data slot0 slot0 bytes]
            simp
          · rw [count_data_cons, count_data_nil,
              is_data_frame_data slot0 slot0 bytes hu]
            simp
    · -- a Data record of a different (topic, instance) pair
      have hne : ti * cfg.max_multi_ids + inst ≠ slot0 := by
        rw [hslot]
        exact slot_injective cfg.max_multi_ids ti inst ti0 inst0
          (by omega) hi0 hpair
      have hfalse : is_data_record ti0 inst0
          (Rec.mk (RecordMeta.data ti inst ts) bytes) = false := by
        rcases hv : is_data_record ti0 inst0
            (Rec.mk (RecordMeta.data ti inst ts) bytes) with _ | _
        · rfl
        · exact absurd ((is_data_record_data ti0 inst0 ti inst ts bytes).mp hv) hpair
      by_cases hfl : s.subscribed.getD (ti * cfg.max_multi_ids + inst) 0 = 0
      · rw [if_pos (beq_iff_eq.mpr hfl)] at hw'
        by_cases ha : 3 + (R.entries.get ⟨ti, hti⟩).name.length ≤ 65535
        swap
        · rw [write_add_subscription_err vecSink s inst _ _ ha, andThen_err] at hw'
          simp [Prod.ext_iff] at hw'
        rw [write_add_subscription_vec s inst _ _ ha, andThen_ok] at hw'
        by_cases hd : 2 + bytes.length ≤ 65535
        swap
        · rw [write_data_err vecSink _ _ bytes hd] at hw'
          simp [Prod.ext_iff] at hw'
        rw [write_data_vec _ _ bytes hd] at hw'
        have hs := ok_pair_inj hw'
        subst hs
        refine ⟨frame_bytes 65 (add_subscription_prefix_bytes inst
              (ti * cfg.max_multi_ids + inst) ++ (R.entries.get ⟨ti, hti⟩).name)
            ++ frame_bytes 68 (data_prefix_bytes (ti * cfg.max_multi_ids + inst)
              ++ bytes),
          [(65, add_subscription_prefix_bytes inst (ti * cfg.max_multi_ids + inst)
              ++ (R.entries.get ⟨ti, hti⟩).name),
           (68, data_prefix_bytes (ti * cfg.max_multi_ids + inst) ++ bytes)],
          by simp, ?_, by simpa, ?_, ?_, ?_⟩
        · intro rest
          rw [List.append_assoc, parse_frames_cons 65 _ _
            (by simp only [List.length_append, List.length_cons,
              add_subscription_prefix_bytes, le_bytes_length]; omega)]
          rw [parse_frames_cons 68 _ rest
            (by simp [data_prefix_bytes, le_bytes_length]; omega)]
          simp
        · intro hfl2
          refine ⟨?_, ?_, ?_⟩
          · rw [count_sub_cons, count_sub_cons, count_sub_nil,
              is_sub_frame_sub slot0 inst _ _ hu,
              is_sub_frame_data slot0 _ bytes]
            simp [beq_eq_false_iff_ne.mpr hne]
          · rw [count_data_cons, count_data_cons, count_data_nil,
              is_data_frame_sub slot0 inst _ _,
              is_data_frame_data slot0 _ bytes hu]
            simp [beq_eq_false_iff_ne.mpr hne]
          · show (s.subscribed.set (ti * cfg.max_multi_ids + inst) 1).getD slot0 0
              = s.subscribed.getD slot0 0
            simp [List.getD_eq_getElem?_getD, List.getElem?_set_ne hne]
        · intro hrec
          rw [hfalse] at hrec
          exact Bool.noConfusion hrec
        · intro hrec
          rw [hfalse] at hrec
          exact Bool.noConfusion hrec
      · rw [if_neg (fun hc => hfl (beq_iff_eq.mp hc))] at hw'
        by_cases hd : 2 + bytes.length ≤ 65535
        swap
        · rw [write_data_err vecSink s _ bytes hd] at hw'
          simp [Prod.ext_iff] at hw'
        rw [write_data_vec s _ bytes hd] at hw'
        have hs := ok_pair_inj hw'
        subst hs
        refine ⟨frame_bytes 68 (data_prefix_bytes (ti * cfg.max_multi_ids + inst)
            ++ bytes),
          [(68, data_prefix_bytes (ti * cfg.max_multi_ids + inst) ++ bytes)],
          by simp, ?_, by simpa, ?_, ?_, ?_⟩
        · intro rest
          rw [parse_frames_cons 68 _ rest
            (by simp [data_prefix_bytes, le_bytes_length]; omega)]
          simp
        · intro hfl2
          refine ⟨?_, ?_, rfl⟩
          · rw [count_sub_cons, count_sub_nil, is_sub_frame_data slot0 _ bytes]
            simp
          · rw [count_data_cons, count_data_nil,
              is_data_frame_data slot0 _ bytes hu]
            simp [beq_eq_false_iff_ne.mpr hne]
        · intro hrec
          rw [hfalse] at hrec
          exact Bool.noConfusion hrec
        · intro hrec
          rw [hfalse] at hrec
          exact Bool.noConfusion hrec

theorem pres_emit_startup_body {σ ε : Type} (R : Registry) (M : WriterModel σ ε)
    (s : ExpState σ) (ts : Nat) :
    (Exp.emit_startup_body R M s ts).2.subscribed = s.subscribed
    ∧ (Exp.emit_startup_body R M s ts).2.dropped_streams = s.dropped_streams := by
  rw [Exp.emit_startup_body]
  have h1 := pres_write_all M s (write_header ts)
  rcases hA : Exp.write_all M s (write_header ts) with ⟨rA, sA⟩
  rw [hA] at h1
  cases rA with
  | error e => exact ⟨h1.2.1, h1.2.2⟩
  | ok u =>
    rw [andThen_ok]
    have h2 := pres_write_flag_bits M sA
    rcases hB : Exp.write_flag_bits M sA with ⟨rB, sB⟩
    rw [hB] at h2
    cases rB with
    | error e =>
      exact ⟨h2.2.1.trans h1.2.1, h2.2.2.trans h1.2.2⟩
    | ok u =>
      rw [andThen_ok]
      have h3 := pres_write_formats M R.entries sB
      rcases hC : Exp.write_formats M sB R.entries with ⟨rC, sC⟩
      rw [hC] at h3
      cases rC with
      | error e =>
        exact ⟨(h3.2.1.trans h2.2.1).trans h1.2.1,
          (h3.2.2.trans h2.2.2).trans h1.2.2⟩
      | ok u =>
        rw [andThen_ok]
        exact ⟨(h3.2.1.trans h2.2.1).trans h1.2.1,
          (h3.2.2.trans h2.2.2).trans h1.2.2⟩

theorem emit_startup_new_subscribed {σ ε : Type} (cfg : Cfg) (R : Registry)
    (M : WriterModel σ ε) (w : σ) (ts : Nat) {s1 : ExpState σ}
    (h : Exp.emit_startup R M (ExpState.new cfg w) ts = (.ok (), s1)) :
    s1.subscribed = List.replicate cfg.max_streams 0 := by
  rw [Exp.emit_startup] at h
  rw [if_neg (by simp [ExpState.new])] at h
  have h2 := congrArg (fun q => q.2.subscribed) h
  simp only at h2
  rw [← h2]
  exact (pres_emit_startup_body R M (ExpState.new cfg w) ts).1

theorem getD_replicate_zero (n i : Nat) : (List.replicate n 0).getD i 0 = 0 := by
  simp only [List.getD_eq_getElem?_getD, List.getElem?_replicate]
  split <;> simp

/-- The drained-sequence invariant at one fixed slot: the bytes the drain
appends split into frames, and for the slot of interest the subscription
frame count matches the `subscribed` bit, every prefix containing a data
frame contains the subscription frame first, and the data frame count
matches the number of drained Data records of the pair. -/
theorem drain_records_inv (cfg : Cfg) (R : Registry) (ti0 inst0 slot0 : Nat)
    (hslot : slot0 = ti0 * cfg.max_multi_ids + inst0)
    (hi0 : inst0 < cfg.max_multi_ids)
    (hm0 : slot0 < cfg.max_streams)
    (hu0 : slot0 < 65536) :
    ∀ (records : List Rec) (s s' : ExpState (List Nat)),
      Exp.drain_records cfg R vecSink s records = (.ok (), s') →
      s.subscribed.length = cfg.max_streams →
      ∃ chunk nfs,
        s'.writer = s.writer ++ chunk
        ∧ (∀ rest, parse_frames (chunk ++ rest) = nfs ++ parse_frames rest)
        ∧ s'.subscribed.length = cfg.max_streams
        ∧ count_data slot0 nfs
            = (records.filter (is_data_record ti0 inst0)).length
        ∧ (s.subscribed.getD slot0 0 = 0 →
            (count_sub slot0 nfs
              = if s'.subscribed.getD slot0 0 = 0 then 0 else 1)
            ∧ ∀ n, 0 < count_data slot0 (nfs.take n)
                → 0 < count_sub slot0 (nfs.take n))
        ∧ (s.subscribed.getD slot0 0 ≠ 0 →
            count_sub slot0 nfs = 0 ∧ s'.subscribed.getD slot0 0 ≠ 0) := by
  intro records
  induction records with
  | nil =>
    intro s s' hdrain hlen
    rw [Exp.drain_records] at hdrain
    have hs := ok_pair_inj hdrain
    subst hs
    refine ⟨[], [], by simp, by intro rest; simp, hlen, by simp [count_data_nil],
      fun h0 => ⟨by rw [count_sub_nil, if_pos h0], ?_⟩,
      fun hne => ⟨count_sub_nil slot0, hne⟩⟩
    intro n hn
    simp [count_data_nil] at hn
  | cons r rest ih =>
    intro s s' hdrain hlen
    rw [Exp.drain_records] at hdrain
    obtain ⟨s1, hw, hdrain2⟩ := andThen_eq_ok hdrain
    obtain ⟨c1, n1, hwr1, hp1, hlen1, hother1, hnew1, hold1⟩ :=
      write_record_ok_step cfg R s s1 r ti0 inst0 slot0 hw hslot hi0 hm0 hu0 hlen
    obtain ⟨c2, n2, hwr2, hp2, hlen2, hcd2, hA2, hB2⟩ :=
      ih s1 s' hdrain2 hlen1
    refine ⟨c1 ++ c2, n1 ++ n2, ?_, ?_, hlen2, ?_, ?_, ?_⟩
    · rw [hwr2, hwr1, List.append_assoc]
    · intro rest2
      rw [List.append_assoc, hp1 (c2 ++ rest2), hp2 rest2, List.append_assoc]
    · rw [count_data_append, hcd2, List.filter_cons]
      by_cases hr : is_data_record ti0 inst0 r = true
      · rw [if_pos hr, List.length_cons]
        by_cases hfl : s.subscribed.getD slot0 0 = 0
        · rw [(hnew1 hr hfl).2.1]
          omega
        · rw [(hold1 hr hfl).2.1]
          omega
      · have hr' : is_data_record ti0 inst0 r = false := by
          rcases hv : is_data_record ti0 inst0 r with _ | _
          · rfl
          · exact absurd hv hr
        rw [if_neg (by simp [hr']), (hother1 hr').2.1]
        omega
    · intro h0
      by_cases hr : is_data_record ti0 inst0 r = true
      · obtain ⟨hcs1, hcd1, hq1, hfl1⟩ := hnew1 hr h0
        obtain ⟨hcs2, hfl2⟩ := hB2 (by rw [hfl1]; omega)
        constructor
        · rw [count_sub_append, hcs1, hcs2, if_neg hfl2]
        · intro n hn
          rw [List.take_append_eq_append_take, count_data_append] at hn
          rw [List.take_append_eq_append_take, count_sub_append]
          by_cases hc : 0 < count_data slot0 (n1.take n)
          · have := hq1 n hc
            omega
          · have hd2 : 0 < count_data slot0 (n2.take (n - n1.length)) := by omega
            have hlt : n1.length < n := by
              by_contra hle
              rw [show n - n1.length = 0 by omega] at hd2
              simp [count_data_nil] at hd2
            rw [List.take_of_length_le (by omega)]
            rw [hcs1]
            omega
      · have hr' : is_data_record ti0 inst0 r = false := by
          rcases hv : is_data_record ti0 inst0 r with _ | _
          · rfl
          · exact absurd hv hr
        obtain ⟨hcs1, hcd1, hfl1⟩ := hother1 hr'
        obtain ⟨hcs2, hq2⟩ := hA2 (by rw [hfl1]; exact h0)
        constructor
        · rw [count_sub_append, hcs1, hcs2]
          omega
        · intro n hn
          rw [List.take_append_eq_append_take, count_data_append] at hn
          rw [List.take_append_eq_append_take, count_sub_append]
          have hn1 : count_data slot0 (n1.take n) = 0 := by
            have := count_data_take_le slot0 n1 n
            omega
          have := hq2 (n - n1.length) (by omega)
          omega
    · intro hne
      by_cases hr : is_data_record ti0 inst0 r = true
      · obtain ⟨hcs1, hcd1, hfl1⟩ := hold1 hr hne
        obtain ⟨hcs2, hfl2⟩ := hB2 (by rw [hfl1]; exact hne)
        exact ⟨by rw [count_sub_append, hcs1, hcs2], hfl2⟩
      · have hr' : is_data_record ti0 inst0 r = false := by
          rcases hv : is_data_record ti0 inst0 r with _ | _
          · rfl
          · exact absurd hv hr
        obtain ⟨hcs1, hcd1, hfl1⟩ := hother1 hr'
        obtain ⟨hcs2, hfl2⟩ := hB2 (by rw [hfl1]; exact hne)
        exact ⟨by rw [count_sub_append, hcs1, hcs2], hfl2⟩

/-- C1: after a successful `emit_startup` on a fresh exporter, over any
successfully drained record sequence and for every (topic, instance) pair
with `instance < MAX_MULTI_IDS`, a valid topic index, and
`slot = topic_index * MAX_MULTI_IDS + instance` below both `MAX_STREAMS`
and `2^16`: the frames appended after startup contain exactly one
AddSubscription (`'A'`) frame for that slot, every frame-prefix that
contains a Data (`'D'`) frame for that slot's msg id already contains the
subscription frame (it precedes the first Data frame), and the number of
`'D'` frames for the slot equals the number of drained Data records of the
pair — later Data records of the pair emit a Data frame and no further
subscription frame. -/
theorem claim1_subscription_protocol (cfg : Cfg) (R : Registry)
    (records : List Rec) (ts : Nat) (s1 s2 : ExpState (List Nat))
    (hstart : Exp.emit_startup R vecSink (ExpState.new cfg []) ts = (.ok (), s1))
    (hdrain : Exp.drain_records cfg R vecSink s1 records = (.ok (), s2))
    (ti0 inst0 : Nat) (hi0 : inst0 < cfg.max_multi_ids) (ht0 : ti0 < R.len)
    (hm0 : ti0 * cfg.max_multi_ids + inst0 < cfg.max_streams)
    (hu0 : ti0 * cfg.max_multi_ids + inst0 < 65536)
    (hex : ∃ r ∈ records, is_data_record ti0 inst0 r = true) :
    count_sub (ti0 * cfg.max_multi_ids + inst0)
        (parse_frames (s2.writer.drop s1.writer.length)) = 1
    ∧ (∀ n, 0 < count_data (ti0 * cfg.max_multi_ids + inst0)
          ((parse_frames (s2.writer.drop s1.writer.length)).take n)
        → 0 < count_sub (ti0 * cfg.max_multi_ids + inst0)
            ((parse_frames (s2.writer.drop s1.writer.length)).take n))
    ∧ count_data (ti0 * cfg.max_multi_ids + inst0)
        (parse_frames (s2.writer.drop s1.writer.length))
      = (records.filter (is_data_record ti0 inst0)).length := by
  have hsub1 : s1.subscribed = List.replicate cfg.max_streams 0 :=
    emit_startup_new_subscribed cfg R vecSink [] ts hstart
  have hlen1 : s1.subscribed.length = cfg.max_streams := by
    rw [hsub1, List.length_replicate]
  obtain ⟨chunk, nfs, hwr, hp, hlen2, hcd, hA, hB⟩ :=
    drain_records_inv cfg R ti0 inst0 (ti0 * cfg.max_multi_ids + inst0) rfl
      hi0 hm0 hu0 records s1 s2 hdrain hlen1
  have hflag0 : s1.subscribed.getD (ti0 * cfg.max_multi_ids + inst0) 0 = 0 := by
    rw [hsub1]
    exact getD_replicate_zero cfg.max_streams _
  obtain ⟨hcs, hq⟩ := hA hflag0
  have hparse : parse_frames (s2.writer.drop s1.writer.length) = nfs := by
    rw [hwr, List.drop_left]
    have h0 := hp []
    rw [List.append_nil] at h0
    rw [h0]
    simp [parse_frames]
  rw [hparse]
  have hpos : 0 < (records.filter (is_data_record ti0 inst0)).length := by
    obtain ⟨r, hr, hrt⟩ := hex
    exact List.length_pos_of_mem (List.mem_filter.mpr ⟨hr, hrt⟩)
  have hcdpos : 0 < count_data (ti0 * cfg.max_multi_ids + inst0) nfs := by
    omega
  have hcspos : 0 < count_sub (ti0 * cfg.max_multi_ids + inst0) nfs := by
    have := hq nfs.length (by rw [List.take_length]; exact hcdpos)
    rw [List.take_length] at this
    exact this
  have hne : s2.subscribed.getD (ti0 * cfg.max_multi_ids + inst0) 0 ≠ 0 := by
    intro h0
    rw [hcs, if_pos h0] at hcspos
    omega
  exact ⟨by rw [hcs, if_neg hne], hq, hcd⟩

/-- Witness for C1: a one-topic registry, one drained Data record; after
startup the appended frames hold exactly one subscription frame and one
data frame for slot 0. -/
theorem claim1_witness :
    ((0 : Nat) < (Cfg.mk 8 1 4).max_multi_ids
      ∧ (0 : Nat) < (Registry.mk [MessageMeta.mk [] [] 0]).len
      ∧ (0 : Nat) * (Cfg.mk 8 1 4).max_multi_ids + 0 < (Cfg.mk 8 1 4).max_streams
      ∧ (0 : Nat) * (Cfg.mk 8 1 4).max_multi_ids + 0 < 65536)
    ∧ count_sub (0 * (Cfg.mk 8 1 4).max_multi_ids + 0)
        (parse_frames
          (((Exp.drain_records (Cfg.mk 8 1 4) (Registry.mk [MessageMeta.mk [] [] 0])
              vecSink
              (Exp.emit_startup (Registry.mk [MessageMeta.mk [] [] 0]) vecSink
                (ExpState.new (Cfg.mk 8 1 4) []) 0).2
              [Rec.mk (RecordMeta.data 0 0 0) [9]]).2.writer.drop
            ((Exp.emit_startup (Registry.mk [MessageMeta.mk [] [] 0]) vecSink
              (ExpState.new (Cfg.mk 8 1 4) []) 0).2.writer.length)))) = 1
    ∧ count_data (0 * (Cfg.mk 8 1 4).max_multi_ids + 0)
        (parse_frames
          (((Exp.drain_records (Cfg.mk 8 1 4) (Registry.mk [MessageMeta.mk [] [] 0])
              vecSink
              (Exp.emit_startup (Registry.mk [MessageMeta.mk [] [] 0]) vecSink
                (ExpState.new (Cfg.mk 8 1 4) []) 0).2
              [Rec.mk (RecordMeta.data 0 0 0) [9]]).2.writer.drop
            ((Exp.emit_startup (Registry.mk [MessageMeta.mk [] [] 0]) vecSink
              (ExpState.new (Cfg.mk 8 1 4) []) 0).2.writer.length))))
      = ([Rec.mk (RecordMeta.data 0 0 0) [9]].filter (is_data_record 0 0)).length :=
  ⟨⟨by decide, by decide, by decide, by decide⟩,
    (claim1_subscription_protocol (Cfg.mk 8 1 4)
      (Registry.mk [MessageMeta.mk [] [] 0]) [Rec.mk (RecordMeta.data 0 0 0) [9]]
      0
      (Exp.emit_startup (Registry.mk [MessageMeta.mk [] [] 0]) vecSink
        (ExpState.new (Cfg.mk 8 1 4) []) 0).2
      (Exp.drain_records (Cfg.mk 8 1 4) (Registry.mk [MessageMeta.mk [] [] 0])
        vecSink
        (Exp.emit_startup (Registry.mk [MessageMeta.mk [] [] 0]) vecSink
          (ExpState.new (Cfg.mk 8 1 4) []) 0).2
        [Rec.mk (RecordMeta.data 0 0 0) [9]]).2
      (by decide) (by decide) 0 0 (by decide) (by decide) (by decide) (by decide)
      (by decide)).1,
    (claim1_subscription_protocol (Cfg.mk 8 1 4)
      (Registry.mk [MessageMeta.mk [] [] 0]) [Rec.mk (RecordMeta.data 0 0 0) [9]]
      0
      (Exp.emit_startup (Registry.mk [MessageMeta.mk [] [] 0]) vecSink
        (ExpState.new (Cfg.mk 8 1 4) []) 0).2
      (Exp.drain_records (Cfg.mk 8 1 4) (Registry.mk [MessageMeta.mk [] [] 0])
        vecSink
        (Exp.emit_startup (Registry.mk [MessageMeta.mk [] [] 0]) vecSink
          (ExpState.new (Cfg.mk 8 1 4) []) 0).2
        [Rec.mk (RecordMeta.data 0 0 0) [9]]).2
      (by decide) (by decide) 0 0 (by decide) (by decide) (by decide) (by decide)
      (by decide)).2.2⟩

end UfUlog
